import Mathlib

/-! Function header lowering of `codegen/fn_ir_builder.cc`.

A shallow embedding of `fesql::codegen::FnIRBuilder` (`Build`, `BuildFnHead`,
`BuildFnHeadWithRetStruct`, `CreateFunction`, `FillArgs`, `BuildParas`) together
with the parts of its environment that the methods touch: the status record, the
function-definition nodes, the scope table and the declaration table of the
backend module.

Pointers that the source tests against `NULL` are `Option` values.  A method
returns an `Outcome`: the boolean it returns with the state it leaves, or the
point at which its behaviour stops being defined (a null pointer is
dereferenced, or a value that is not a function is used as one).  The mutual
recursion `BuildFnHead -> BuildFnHeadWithRetStruct -> BuildFnHead` is bounded by
a fuel argument.
-/

set_option autoImplicit false
set_option linter.unusedSectionVars false
set_option linter.unusedVariables false

namespace fesql

/-! ## Status record -/

/-- The members of `common::StatusCode` the builder works with: the default
`kOk` and the `kCodegenError` that every failing path stores. -/
inductive StatusCode where
  | kOk
  | kCodegenError
  deriving DecidableEq, Repr

/-- The record `base::Status`: a code and a message. -/
structure Status where
  code : StatusCode
  msg : String
  deriving DecidableEq, Repr

/-! ## Nodes of the function definition -/

/-- A formal parameter `node::FnParaNode`: its name and its declared type. -/
structure FnParaNode (TypeNode : Type) where
  GetName : String
  GetParaType : TypeNode
  deriving DecidableEq, Repr

/-- The node list `node::FnNodeList`; the children of a parameter list are
parameter nodes. -/
structure FnNodeList (TypeNode : Type) where
  children : List (FnParaNode TypeNode)
  deriving DecidableEq, Repr

/-- Appends a child, as `FnNodeList::AddChild` does. -/
def FnNodeList.AddChild {TypeNode : Type} (l : FnNodeList TypeNode)
    (node : FnParaNode TypeNode) : FnNodeList TypeNode :=
  ⟨l.children ++ [node]⟩

/-- The header `node::FnNodeFnHeander`: name, pointer to the parameter list
(`none` is the null pointer) and declared return type. -/
structure FnNodeFnHeander (TypeNode : Type) where
  name_ : String
  parameters_ : Option (FnNodeList TypeNode)
  ret_type_ : TypeNode
  deriving DecidableEq, Repr

/-- The node kinds `node::SQLNodeType`: `kFnDef`, and the other members of the
enumeration, told apart by their number. -/
inductive SQLNodeType where
  | kFnDef
  | other (tag : Nat)
  deriving DecidableEq, Repr

/-- The definition node `node::FnNodeFnDef`: its kind tag, the pointer to its
header (`none` is the null pointer) and its body. -/
structure FnNodeFnDef (TypeNode Block : Type) where
  GetType : SQLNodeType
  header_ : Option (FnNodeFnHeander TypeNode)
  block_ : Block

/-! ## Backend module -/

/-- A function type `llvm::FunctionType` that is not variadic: return type and
parameter types. -/
structure FunctionType (LType : Type) where
  ret : LType
  params : List LType
  deriving DecidableEq, Repr

/-- A function `llvm::Function` held by a module: name, type and the labels of
the basic blocks inserted into it. -/
structure Function (LType : Type) where
  name : String
  type : FunctionType LType
  blocks : List String
  deriving DecidableEq, Repr

/-- The declaration table of `llvm::Module`. -/
structure Module (LType : Type) where
  functions : List (Function LType)
  deriving DecidableEq, Repr

/-- The value held by `FunctionCallee::getCallee`: a function of the module, or
the constant expression that casts the function of that name to a pointer to
another function type. -/
inductive Callee (LType : Type) where
  | function (name : String) (type : FunctionType LType)
  | bitcast (name : String) (type : FunctionType LType)
  deriving DecidableEq, Repr

/-- A formal argument `llvm::Argument` of a function: the function it belongs
to, its position and its type. -/
structure Argument (LType : Type) where
  parent : String
  argNo : Nat
  type : LType
  deriving DecidableEq, Repr

/-- The arguments of a function named `parent` whose parameter types are `tys`,
numbered from `k`. -/
def argsFrom {LType : Type} (parent : String) : Nat → List LType → List (Argument LType)
  | _, [] => []
  | k, t :: ts => ⟨parent, k, t⟩ :: argsFrom parent (k + 1) ts

/-- The range `arg_begin() .. arg_end()` of the function `name` of type `type`. -/
def Callee.args {LType : Type} (name : String) (type : FunctionType LType) :
    List (Argument LType) :=
  argsFrom name 0 type.params

/-- The function recorded under a name, as `Module::getFunction`. -/
def Module.getFunction {LType : Type} (m : Module LType) (name : String) :
    Option (Function LType) :=
  m.functions.find? (fun f => f.name == name)

/-- Library behaviour of `Module::getOrInsertFunction(name, fnt)`: a name that
is not in the table is appended as a new prototype, which is returned; a
function of that name with the type `fnt` is returned as it is; a function of
that name with another type is returned behind a cast to `fnt`, the table
staying as it was. -/
def Module.getOrInsertFunction {LType : Type} [DecidableEq LType] (m : Module LType)
    (name : String) (fnt : FunctionType LType) : Callee LType × Module LType :=
  match m.getFunction name with
  | none => (Callee.function name fnt, ⟨m.functions ++ [⟨name, fnt, []⟩]⟩)
  | some f =>
    if f.type = fnt then (Callee.function f.name f.type, m)
    else (Callee.bitcast f.name fnt, m)

/-- Inserts a block label at the end of the function `name`, as
`BasicBlock::Create(context, label, fn)` does. -/
def Module.addBlock {LType : Type} (m : Module LType) (name label : String) :
    Module LType :=
  ⟨m.functions.map (fun f => if f.name == name then { f with blocks := f.blocks ++ [label] } else f)⟩

/-! ## Scope table -/

/-- The handle `NativeValue` made by `NativeValue::Create(argu)`: it wraps the
argument. -/
structure NativeValue (LType : Type) where
  raw : Argument LType
  deriving DecidableEq, Repr

/-- Wraps an argument, as `NativeValue::Create`. -/
def NativeValue.Create {LType : Type} (argu : Argument LType) : NativeValue LType :=
  ⟨argu⟩

/-- Modelled from the spec: one named scope of the scope table (the class
`ScopeVar` is declared outside these sources), "a mapping from name to native
value handle" with unique keys. -/
structure Scope (LType : Type) where
  name : String
  scope_map : List (String × NativeValue LType)
  deriving DecidableEq, Repr

/-- Modelled from the spec: the scope table `ScopeVar` (declared outside these
sources), a "stack of named scopes"; the current scope is the head. -/
structure ScopeVar (LType : Type) where
  scopes_ : List (Scope LType)
  deriving DecidableEq, Repr

/-- Modelled from the spec: `Enter(label)` of `ScopeVar`, which "pushes a new
nested scope named label".  The path it returns only feeds a debug log line of
the builder and is left out. -/
def ScopeVar.Enter {LType : Type} (sv : ScopeVar LType) (label : String) : ScopeVar LType :=
  ⟨⟨label, []⟩ :: sv.scopes_⟩

/-- The value bound to a name in one scope. -/
def Scope.find {LType : Type} (s : Scope LType) (name : String) : Option (NativeValue LType) :=
  s.scope_map.lookup name

/-- Modelled from the spec: `AddVar(name, valueHandle)` of `ScopeVar`, which
"binds name in the current scope; returns false (no mutation) if name is
already bound in that scope".  With no scope entered there is no current scope
and nothing is bound. -/
def ScopeVar.AddVar {LType : Type} (sv : ScopeVar LType) (name : String)
    (value : NativeValue LType) : Bool × ScopeVar LType :=
  match sv.scopes_ with
  | [] => (false, sv)
  | cur :: rest =>
    match cur.find name with
    | some _ => (false, sv)
    | none => (true, ⟨{ cur with scope_map := cur.scope_map ++ [(name, value)] } :: rest⟩)

/-- The value bound to a name in the current scope. -/
def ScopeVar.findInCurrent {LType : Type} (sv : ScopeVar LType) (name : String) :
    Option (NativeValue LType) :=
  match sv.scopes_ with
  | [] => none
  | cur :: _ => cur.find name

/-! ## Environment of the builder -/

/-- The functions and constants the builder takes from the rest of the code
generator, which are declared outside these sources: the type mapper
`GetLLVMType`, the classifier `TypeIRBuilder::IsStructPtr`, the type node
`node::TypeNode(node::kBool)` and the name derivation
`FnNodeFnHeander::GeIRFunctionName`.  The mapper is a function of the type node:
the module it is handed does not decide its result. -/
structure CodegenEnv (TypeNode LType : Type) where
  GetLLVMType : TypeNode → Option LType
  IsStructPtr : LType → Bool
  kBool : TypeNode
  GeIRFunctionName : FnNodeFnHeander TypeNode → String

/-- The body lowering `BlockIRBuilder::BuildBlock`, declared outside these
sources: from the scope, the body, the function that receives the entry block,
the module and the status it gives its boolean, the module and the status. -/
structure BlockIRBuilder (LType Block : Type) where
  BuildBlock : ScopeVar LType → Block → String → Module LType → Status →
    Bool × Module LType × Status

/-! ## Outcomes and state -/

/-- What a call does: it returns its boolean leaving a state, or it reaches a
point where its behaviour is undefined (the state is the one at that point), or
the fuel of the model is used up. -/
inductive Outcome (σ : Type) where
  | returned (ok : Bool) (st : σ)
  | nullDeref (st : σ)
  | notAFunction (st : σ)
  | outOfFuel
  deriving DecidableEq, Repr

/-- The state at which an outcome stops, when there is one. -/
def Outcome.state {σ : Type} : Outcome σ → Option σ
  | .returned _ st => some st
  | .nullDeref st => some st
  | .notAFunction st => some st
  | .outOfFuel => none

/-- What the header builder reads and writes: the module `module_`, the scope
table behind `sv`, the out-parameter `fn` (`none` is the null pointer,
`some slot` a pointer to a slot holding `slot`), the status, and a counter of
the calls of `BuildFnHeadWithRetStruct` kept for the statement of
termination.  The pointers `module_` and `sv`, which no path of the source
tests, are valid. -/
structure St (LType : Type) where
  module_ : Module LType
  sv : ScopeVar LType
  fn : Option (Option (Callee LType))
  status : Status
  rewrites : Nat
  deriving DecidableEq, Repr

section Builder

variable {TypeNode LType Block : Type} [DecidableEq LType]

/-! ## `BuildParas` -/

/-- The loop of `BuildParas` from the child at hand on: each parameter type is
mapped and pushed; the first type without a native representation stops the
loop with the status naming the parameter. -/
def BuildParas.loop (env : CodegenEnv TypeNode LType) :
    List (FnParaNode TypeNode) → List LType → Status → Bool × List LType × Status
  | [], paras, status => (true, paras, status)
  | pnode :: rest, paras, status =>
    match env.GetLLVMType pnode.GetParaType with
    | none =>
      (false, paras,
        ⟨StatusCode.kCodegenError, "fail to get primary type for pname " ++ pnode.GetName⟩)
    | some type => BuildParas.loop env rest (paras ++ [type]) status

/-- `FnIRBuilder::BuildParas(node, paras, status)`. -/
def BuildParas (env : CodegenEnv TypeNode LType) (node : Option (FnNodeList TypeNode))
    (paras : List LType) (status : Status) : Bool × List LType × Status :=
  match node with
  | none => (false, paras, ⟨StatusCode.kCodegenError, "node is null or node type mismatch"⟩)
  | some node => BuildParas.loop env node.children paras status

/-! ## `FillArgs` -/

/-- The loop of `FillArgs`: it runs while there is a native argument and a
child left, binds the child's name to the argument and stops at the first
binding that the scope table refuses. -/
def FillArgs.loop : List (Argument LType) → List (FnParaNode TypeNode) → ScopeVar LType →
    Status → Bool × ScopeVar LType × Status
  | argu :: args, pnode :: rest, sv, status =>
    match sv.AddVar pnode.GetName (NativeValue.Create argu) with
    | (true, sv1) => FillArgs.loop args rest sv1 status
    | (false, sv1) =>
      (false, sv1, ⟨StatusCode.kCodegenError, "fail to define var " ++ pnode.GetName⟩)
  | [], _, sv, status => (true, sv, status)
  | _ :: _, [], sv, status => (true, sv, status)

/-- `FnIRBuilder::FillArgs(node, sv, fn, status)`, `args` being the arguments
of `fn`. -/
def FillArgs (node : Option (FnNodeList TypeNode)) (sv : ScopeVar LType)
    (args : List (Argument LType)) (status : Status) : Bool × ScopeVar LType × Status :=
  match node with
  | none => (false, sv, ⟨StatusCode.kCodegenError, "node is null or node type mismatch"⟩)
  | some node => FillArgs.loop args node.children sv status

/-! ## `CreateFunction` -/

/-- `FnIRBuilder::CreateFunction(fn_def, fn, status)`. -/
def CreateFunction (env : CodegenEnv TypeNode LType)
    (fn_def : Option (FnNodeFnHeander TypeNode)) (st : St LType) : Outcome (St LType) :=
  match fn_def with
  | none => .returned false { st with status := ⟨StatusCode.kCodegenError, "input is null"⟩ }
  | some fn_def =>
    match st.fn with
    | none => .returned false { st with status := ⟨StatusCode.kCodegenError, "input is null"⟩ }
    | some _ =>
      match env.GetLLVMType fn_def.ret_type_ with
      | none =>
        .returned false { st with status := ⟨StatusCode.kCodegenError, "fail to get llvm type"⟩ }
      | some ret_type =>
        let built : Bool × List LType × Status :=
          match fn_def.parameters_ with
          | some ps => BuildParas env (some ps) [] st.status
          | none => (true, [], st.status)
        match built with
        | (false, _, status) => .returned false { st with status := status }
        | (true, paras, status) =>
          let fn_name := env.GeIRFunctionName fn_def
          let fnt : FunctionType LType := ⟨ret_type, paras⟩
          let callee := st.module_.getOrInsertFunction fn_name fnt
          .returned true
            { st with module_ := callee.2, fn := some (some callee.1), status := status }

/-! ## `BuildFnHeadWithRetStruct` and `BuildFnHead` -/

/-- `FnIRBuilder::BuildFnHeadWithRetStruct(fn_def, sv, fn, status)`; the call of
`BuildFnHead` it ends with is the argument `BuildFnHead`. -/
def BuildFnHeadWithRetStruct (env : CodegenEnv TypeNode LType)
    (BuildFnHead : Option (FnNodeFnHeander TypeNode) → St LType → Outcome (St LType))
    (fn_def : Option (FnNodeFnHeander TypeNode)) (st0 : St LType) : Outcome (St LType) :=
  let st := { st0 with rewrites := st0.rewrites + 1 }
  match fn_def with
  | none => .returned false { st with status := ⟨StatusCode.kCodegenError, "input is null"⟩ }
  | some fn_def =>
    match st.fn with
    | none => .returned false { st with status := ⟨StatusCode.kCodegenError, "input is null"⟩ }
    | some _ =>
      match fn_def.parameters_ with
      | none => .nullDeref st
      | some parameters_ =>
        let new_parameters : FnNodeList TypeNode :=
          parameters_.children.foldl (fun l node => l.AddChild node) ⟨[]⟩
        let ret_arg : FnParaNode TypeNode := ⟨"@ret_struct", fn_def.ret_type_⟩
        let new_parameters := new_parameters.AddChild ret_arg
        let ret := env.kBool
        let header : FnNodeFnHeander TypeNode := ⟨fn_def.name_, some new_parameters, ret⟩
        BuildFnHead (some header) st

/-- `FnIRBuilder::BuildFnHead(header, sv, fn, status)`. -/
def BuildFnHead (env : CodegenEnv TypeNode LType) :
    Nat → Option (FnNodeFnHeander TypeNode) → St LType → Outcome (St LType)
  | 0, _, _ => .outOfFuel
  | _ + 1, none, st => .nullDeref st
  | fuel + 1, some header, st =>
    match env.GetLLVMType header.ret_type_ with
    | none =>
      .returned false { st with status := ⟨StatusCode.kCodegenError, "fail to get llvm type"⟩ }
    | some ret_type =>
      if env.IsStructPtr ret_type then
        BuildFnHeadWithRetStruct env (BuildFnHead env fuel) (some header) st
      else
        match CreateFunction env (some header) st with
        | .returned true st1 =>
          match st1.fn with
          | some (some (Callee.function fname ftype)) =>
            let st2 := { st1 with sv := st1.sv.Enter fname }
            match header.parameters_ with
            | some ps =>
              match FillArgs (some ps) st2.sv (Callee.args fname ftype) st2.status with
              | (false, sv3, status3) => .returned false { st2 with sv := sv3, status := status3 }
              | (true, sv3, status3) => .returned true { st2 with sv := sv3, status := status3 }
            | none => .returned true st2
          | some (some (Callee.bitcast _ _)) => .notAFunction st1
          | some none => .nullDeref st1
          | none => .nullDeref st1
        | other => other

/-! ## `Build` -/

/-- What `Build` reads and writes: the module, the slot behind the
out-parameter `result`, and the status. -/
structure BuildSt (LType : Type) where
  module_ : Module LType
  result : Option (Callee LType)
  status : Status
  deriving DecidableEq, Repr

/-- `FnIRBuilder::Build(root, result, status)`. -/
def Build (env : CodegenEnv TypeNode LType) (block_ir_builder : BlockIRBuilder LType Block)
    (fuel : Nat) (root : Option (FnNodeFnDef TypeNode Block)) (st : BuildSt LType) :
    Outcome (BuildSt LType) :=
  match root with
  | none => .returned false { st with status := ⟨StatusCode.kCodegenError, "node is null"⟩ }
  | some root =>
    if root.GetType ≠ SQLNodeType.kFnDef then
      .returned false { st with status := ⟨StatusCode.kCodegenError, "node is null"⟩ }
    else
      let sv : ScopeVar LType := (ScopeVar.mk []).Enter "module"
      let fn_def := root.header_
      match BuildFnHead env fuel fn_def ⟨st.module_, sv, some none, st.status, 0⟩ with
      | .returned false s1 => .returned false { st with module_ := s1.module_, status := s1.status }
      | .returned true s1 =>
        match s1.fn with
        | some (some (Callee.function fname ftype)) =>
          let m1 := s1.module_.addBlock fname "entry"
          match block_ir_builder.BuildBlock s1.sv root.block_ fname m1 s1.status with
          | (false, m2, status2) => .returned false { st with module_ := m2, status := status2 }
          | (true, m2, status2) =>
            .returned true ⟨m2, some (Callee.function fname ftype), status2⟩
        | _ => .notAFunction { st with module_ := s1.module_, status := s1.status }
      | .nullDeref s1 => .nullDeref { st with module_ := s1.module_, status := s1.status }
      | .notAFunction s1 => .notAFunction { st with module_ := s1.module_, status := s1.status }
      | .outOfFuel => .outOfFuel

end Builder

/-! ## Derived notions used in the statements -/

section Derived

variable {TypeNode LType : Type}

/-- The parameter nodes of a header; none when the pointer to the list is
null. -/
def FnNodeFnHeander.paras (h : FnNodeFnHeander TypeNode) : List (FnParaNode TypeNode) :=
  match h.parameters_ with
  | some ps => ps.children
  | none => []

/-- The bindings that `FillArgs` makes when no name repeats: each parameter
name with the handle of the argument at its position. -/
def bindings (cs : List (FnParaNode TypeNode)) (args : List (Argument LType)) :
    List (String × NativeValue LType) :=
  List.zipWith (fun p a => (p.GetName, NativeValue.Create a)) cs args

/-- The header that `BuildFnHeadWithRetStruct` hands back to `BuildFnHead`: the
parameters `cs` followed by `@ret_struct` of the original return type, and the
boolean return type. -/
def retStructHeader (env : CodegenEnv TypeNode LType) (h : FnNodeFnHeander TypeNode)
    (cs : List (FnParaNode TypeNode)) : FnNodeFnHeander TypeNode :=
  ⟨h.name_, some ⟨cs ++ [⟨"@ret_struct", h.ret_type_⟩]⟩, env.kBool⟩

/-- Whether the declared return type of a header maps to an aggregate, the
test `TypeIRBuilder::IsStructPtr(ret_type)` of `BuildFnHead`. -/
def returnsAggregate (env : CodegenEnv TypeNode LType) (h : FnNodeFnHeander TypeNode) : Bool :=
  match env.GetLLVMType h.ret_type_ with
  | some rt => env.IsStructPtr rt
  | none => false

/-- The header that is declared: the one `BuildFnHeadWithRetStruct` builds when
the return type maps to an aggregate, the header itself otherwise. -/
def rewrittenHeader (env : CodegenEnv TypeNode LType) (h : FnNodeFnHeander TypeNode) :
    FnNodeFnHeander TypeNode :=
  if returnsAggregate env h then retStructHeader env h h.paras else h

/-- The part of `BuildFnHead` after the declaration: the scope named after the
function `name` is entered and the parameters are bound to its arguments. -/
def finishHead (h : FnNodeFnHeander TypeNode) (name : String) (ft : FunctionType LType)
    (m : Module LType) (st : St LType) : Outcome (St LType) :=
  let r := FillArgs.loop (argsFrom name 0 ft.params) h.paras (st.sv.Enter name) st.status
  .returned r.1 ⟨m, r.2.1, some (some (Callee.function name ft)), r.2.2, st.rewrites⟩

end Derived

/-! ## An instance of the environment for the scenarios -/

namespace Example

/-- Source types of the scenarios: the scalar types, a composite of an
`int32` and a `double`, and a type without native representation. -/
inductive SrcType where
  | kBool
  | kInt32
  | kDouble
  | kVarchar
  | kStructInt32Double
  | kUnmapped
  deriving DecidableEq, Repr

/-- Native types of the scenarios. -/
inductive NatType where
  | i1
  | i32
  | f64
  | str
  | structPtr
  deriving DecidableEq, Repr

/-- Name of a source type inside a function name. -/
def SrcType.GetName : SrcType → String
  | .kBool => "bool"
  | .kInt32 => "int32"
  | .kDouble => "double"
  | .kVarchar => "string"
  | .kStructInt32Double => "struct"
  | .kUnmapped => "unknown"

/-- The environment of the scenarios: every source type but `kUnmapped` has a
native type, only the composite is an aggregate, and a function name is the
header name followed by the names of the parameter types. -/
def env : CodegenEnv SrcType NatType where
  GetLLVMType
    | .kBool => some .i1
    | .kInt32 => some .i32
    | .kDouble => some .f64
    | .kVarchar => some .str
    | .kStructInt32Double => some .structPtr
    | .kUnmapped => none
  IsStructPtr
    | .structPtr => true
    | _ => false
  kBool := .kBool
  GeIRFunctionName h :=
    match h.parameters_ with
    | none => h.name_
    | some ps => ps.children.foldl (fun s p => s ++ "." ++ p.GetParaType.GetName) h.name_

/-- An empty module, no scope entered, a valid out-parameter holding no
function, the default status. -/
def st0 : St NatType :=
  ⟨⟨[]⟩, ⟨[]⟩, some none, ⟨StatusCode.kOk, "ok"⟩, 0⟩

/-- Scenario A: `f(x: int32) -> int32`. -/
def headerA : FnNodeFnHeander SrcType := ⟨"f", some ⟨[⟨"x", .kInt32⟩]⟩, .kInt32⟩

/-- Scenario B with a present, empty parameter list: `g() -> struct`. -/
def headerB : FnNodeFnHeander SrcType := ⟨"g", some ⟨[]⟩, .kStructInt32Double⟩

/-- Scenario B with the null pointer as parameter list. -/
def headerBNull : FnNodeFnHeander SrcType := ⟨"g", none, .kStructInt32Double⟩

/-- Scenario D: `h(x: int32, x: string) -> bool`. -/
def headerD : FnNodeFnHeander SrcType := ⟨"h", some ⟨[⟨"x", .kInt32⟩, ⟨"x", .kVarchar⟩]⟩, .kBool⟩

/-- A header with one parameter and a composite return type:
`g(x: int32) -> struct`. -/
def headerE : FnNodeFnHeander SrcType := ⟨"g", some ⟨[⟨"x", .kInt32⟩]⟩, .kStructInt32Double⟩

/-- A header with a parameter type that has no native type:
`u(x: int32, y: unknown) -> int32`. -/
def headerU : FnNodeFnHeander SrcType :=
  ⟨"u", some ⟨[⟨"x", .kInt32⟩, ⟨"y", .kUnmapped⟩]⟩, .kInt32⟩

/-- The state that `BuildFnHead` leaves for `headerA` from `st0`. -/
def stA : St NatType :=
  ⟨⟨[⟨"f.int32", ⟨.i32, [.i32]⟩, []⟩]⟩,
    ⟨[⟨"f.int32", [("x", ⟨⟨"f.int32", 0, .i32⟩⟩)]⟩]⟩,
    some (some (Callee.function "f.int32" ⟨.i32, [.i32]⟩)), ⟨StatusCode.kOk, "ok"⟩, 0⟩

/-- The state that `BuildFnHead` leaves for `headerB` from `st0`. -/
def stB : St NatType :=
  ⟨⟨[⟨"g.struct", ⟨.i1, [.structPtr]⟩, []⟩]⟩,
    ⟨[⟨"g.struct", [("@ret_struct", ⟨⟨"g.struct", 0, .structPtr⟩⟩)]⟩]⟩,
    some (some (Callee.function "g.struct" ⟨.i1, [.structPtr]⟩)), ⟨StatusCode.kOk, "ok"⟩, 1⟩

/-- The state that `BuildFnHead` leaves for `headerD` from `st0`. -/
def stD : St NatType :=
  ⟨⟨[⟨"h.int32.string", ⟨.i1, [.i32, .str]⟩, []⟩]⟩,
    ⟨[⟨"h.int32.string", [("x", ⟨⟨"h.int32.string", 0, .i32⟩⟩)]⟩]⟩,
    some (some (Callee.function "h.int32.string" ⟨.i1, [.i32, .str]⟩)),
    ⟨StatusCode.kCodegenError, "fail to define var x"⟩, 0⟩

/-- The state that `BuildFnHead` leaves for `headerE` from `st0`. -/
def stE : St NatType :=
  ⟨⟨[⟨"g.int32.struct", ⟨.i1, [.i32, .structPtr]⟩, []⟩]⟩,
    ⟨[⟨"g.int32.struct", [("x", ⟨⟨"g.int32.struct", 0, .i32⟩⟩),
        ("@ret_struct", ⟨⟨"g.int32.struct", 1, .structPtr⟩⟩)]⟩]⟩,
    some (some (Callee.function "g.int32.struct" ⟨.i1, [.i32, .structPtr]⟩)),
    ⟨StatusCode.kOk, "ok"⟩, 1⟩

/-- A header in which `a` is at positions 0 and 3 and `b` at 1 and 2:
`k(a: int32, b: int32, b: int32, a: int32) -> bool`. -/
def headerK : FnNodeFnHeander SrcType :=
  ⟨"k", some ⟨[⟨"a", .kInt32⟩, ⟨"b", .kInt32⟩, ⟨"b", .kInt32⟩, ⟨"a", .kInt32⟩]⟩, .kBool⟩

/-- A header with the same name at three positions:
`k(a: int32, a: int32, a: int32) -> bool`. -/
def headerK3 : FnNodeFnHeander SrcType :=
  ⟨"k", some ⟨[⟨"a", .kInt32⟩, ⟨"a", .kInt32⟩, ⟨"a", .kInt32⟩]⟩, .kBool⟩

/-- The state `st0` with the null pointer for the out-parameter `fn`. -/
def st0NullFn : St NatType :=
  ⟨⟨[]⟩, ⟨[]⟩, none, ⟨StatusCode.kOk, "ok"⟩, 0⟩

/-- The state `st0` with a module that holds `h.int32.string` with the type
`() -> i1`. -/
def st0Clash : St NatType :=
  ⟨⟨[⟨"h.int32.string", ⟨.i1, []⟩, []⟩]⟩, ⟨[]⟩, some none, ⟨StatusCode.kOk, "ok"⟩, 0⟩

/-- A body lowering that succeeds without touching the module. -/
def blockBuilder : BlockIRBuilder NatType Unit :=
  ⟨fun _ _ _ m status => (true, m, status)⟩

/-- The state of `Build` before anything is declared. -/
def bst0 : BuildSt NatType := ⟨⟨[]⟩, none, ⟨StatusCode.kOk, "ok"⟩⟩

/-- A definition node of the right kind whose header pointer is null. -/
def defNullHeader : FnNodeFnDef SrcType Unit := ⟨SQLNodeType.kFnDef, none, ()⟩

/-- A node of another kind carrying the header of scenario A. -/
def defWrongKind : FnNodeFnDef SrcType Unit := ⟨SQLNodeType.other 1, some headerA, ()⟩

/-- The definition of scenario A. -/
def defA : FnNodeFnDef SrcType Unit := ⟨SQLNodeType.kFnDef, some headerA, ()⟩

/-- The definition of scenario D. -/
def defD : FnNodeFnDef SrcType Unit := ⟨SQLNodeType.kFnDef, some headerD, ()⟩

/-- A body lowering that fails without touching the module. -/
def failingBlockBuilder : BlockIRBuilder NatType Unit :=
  ⟨fun _ _ _ m _ => (false, m, ⟨StatusCode.kCodegenError, "fail to build block"⟩)⟩

/-- The state that `Build` leaves for `defD` from `bst0`. -/
def bstD : BuildSt NatType :=
  ⟨⟨[⟨"h.int32.string", ⟨.i1, [.i32, .str]⟩, []⟩]⟩, none,
    ⟨StatusCode.kCodegenError, "fail to define var x"⟩⟩

/-- The state that `Build` leaves for `defA` from `bst0` when the body lowering
fails. -/
def bstA : BuildSt NatType :=
  ⟨⟨[⟨"f.int32", ⟨.i32, [.i32]⟩, ["entry"]⟩]⟩, none,
    ⟨StatusCode.kCodegenError, "fail to build block"⟩⟩

end Example

/-! ## Lists of parameters, arguments and bindings -/

section Lemmas

variable {TypeNode LType Block : Type}

theorem foldl_AddChild (cs : List (FnParaNode TypeNode)) (l : FnNodeList TypeNode) :
    cs.foldl (fun l node => l.AddChild node) l = ⟨l.children ++ cs⟩ := by
  induction cs generalizing l with
  | nil => simp
  | cons c cs ih =>
    simp only [List.foldl_cons]
    rw [ih]
    simp [FnNodeList.AddChild]

theorem BuildParas_loop_ok (env : CodegenEnv TypeNode LType) :
    ∀ (cs : List (FnParaNode TypeNode)) (tys acc : List LType) (status : Status),
      cs.map (fun p => env.GetLLVMType p.GetParaType) = tys.map some →
      BuildParas.loop env cs acc status = (true, acc ++ tys, status) := by
  intro cs
  induction cs with
  | nil =>
    intro tys acc status h
    cases tys with
    | nil => simp [BuildParas.loop]
    | cons t ts => simp at h
  | cons c cs ih =>
    intro tys acc status h
    cases tys with
    | nil => simp at h
    | cons t ts =>
      simp only [List.map_cons, List.cons.injEq] at h
      rw [BuildParas.loop]
      simp only [h.1]
      rw [ih ts (acc ++ [t]) status h.2]
      simp

theorem BuildParas_loop_fail (env : CodegenEnv TypeNode LType) :
    ∀ (pre : List (FnParaNode TypeNode)) (tys : List LType) (p : FnParaNode TypeNode)
      (post : List (FnParaNode TypeNode)) (acc : List LType) (status : Status),
      pre.map (fun p => env.GetLLVMType p.GetParaType) = tys.map some →
      env.GetLLVMType p.GetParaType = none →
      BuildParas.loop env (pre ++ p :: post) acc status =
        (false, acc ++ tys,
          ⟨StatusCode.kCodegenError, "fail to get primary type for pname " ++ p.GetName⟩) := by
  intro pre
  induction pre with
  | nil =>
    intro tys p post acc status h hp
    cases tys with
    | nil => simp [BuildParas.loop, hp]
    | cons t ts => simp at h
  | cons c cs ih =>
    intro tys p post acc status h hp
    cases tys with
    | nil => simp at h
    | cons t ts =>
      simp only [List.map_cons, List.cons.injEq] at h
      simp only [List.cons_append]
      rw [BuildParas.loop]
      simp only [h.1]
      rw [ih ts p post (acc ++ [t]) status h.2 hp]
      simp

theorem mappable_or_first_unmappable (env : CodegenEnv TypeNode LType)
    (cs : List (FnParaNode TypeNode)) :
    (∃ tys : List LType, cs.map (fun p => env.GetLLVMType p.GetParaType) = tys.map some) ∨
    (∃ pre p post, ∃ tys : List LType, cs = pre ++ p :: post ∧
      pre.map (fun p => env.GetLLVMType p.GetParaType) = tys.map some ∧
      env.GetLLVMType p.GetParaType = none) := by
  induction cs with
  | nil => exact Or.inl ⟨[], rfl⟩
  | cons c cs ih =>
    cases hc : env.GetLLVMType c.GetParaType with
    | none => exact Or.inr ⟨[], c, cs, [], rfl, rfl, hc⟩
    | some t =>
      rcases ih with ⟨tys, h⟩ | ⟨pre, p, post, tys, h1, h2, h3⟩
      · exact Or.inl ⟨t :: tys, by simp [hc, h]⟩
      · exact Or.inr ⟨c :: pre, p, post, t :: tys, by simp [h1], by simp [hc, h2], h3⟩

theorem argsFrom_length (parent : String) :
    ∀ (tys : List LType) (k : Nat), (argsFrom parent k tys).length = tys.length := by
  intro tys
  induction tys with
  | nil => intro k; rfl
  | cons t ts ih => intro k; simp [argsFrom, ih]

theorem argsFrom_append (parent : String) :
    ∀ (a b : List LType) (k : Nat),
      argsFrom parent k (a ++ b) = argsFrom parent k a ++ argsFrom parent (k + a.length) b := by
  intro a
  induction a with
  | nil => intro b k; simp [argsFrom]
  | cons t ts ih =>
    intro b k
    have e : k + 1 + ts.length = k + (ts.length + 1) := by omega
    show argsFrom parent k (t :: (ts ++ b)) = argsFrom parent k (t :: ts) ++ _
    rw [argsFrom, argsFrom, ih, List.length_cons, e]
    rfl

theorem argsFrom_getElem? (parent : String) :
    ∀ (tys : List LType) (k i : Nat),
      (argsFrom parent k tys)[i]? = (tys[i]?).map (fun t => ⟨parent, k + i, t⟩) := by
  intro tys
  induction tys with
  | nil => intro k i; simp [argsFrom]
  | cons t ts ih =>
    intro k i
    cases i with
    | zero => simp [argsFrom]
    | succ i =>
      simp only [argsFrom, List.getElem?_cons_succ, ih]
      congr 1
      funext t
      congr 1
      omega

theorem split_at_getElem? {α : Type} :
    ∀ (l : List α) (k : Nat) (x : α), l[k]? = some x →
      ∃ l1 l2, l = l1 ++ x :: l2 ∧ l1.length = k := by
  intro l
  induction l with
  | nil => intro k x h; simp at h
  | cons a l ih =>
    intro k x h
    cases k with
    | zero =>
      simp at h
      exact ⟨[], l, by simp [h], rfl⟩
    | succ k =>
      simp at h
      obtain ⟨l1, l2, h1, h2⟩ := ih k x h
      exact ⟨a :: l1, l2, by simp [h1], by simp [h2]⟩

theorem nodup_or_first_dup (cs : List (FnParaNode TypeNode)) :
    (cs.map (fun p => p.GetName)).Nodup ∨
    (∃ pre q post, cs = pre ++ q :: post ∧ (pre.map (fun p => p.GetName)).Nodup ∧
      q.GetName ∈ pre.map (fun p => p.GetName)) := by
  induction cs using List.reverseRecOn with
  | nil => exact Or.inl (by simp)
  | append_singleton l x ih =>
    rcases ih with h | ⟨pre, q, post, h1, h2, h3⟩
    · by_cases hx : x.GetName ∈ l.map (fun p => p.GetName)
      · exact Or.inr ⟨l, x, [], rfl, h, hx⟩
      · refine Or.inl ?_
        rw [List.map_append, List.nodup_append]
        refine ⟨h, by simp, ?_⟩
        intro a ha hb
        simp at hb
        subst hb
        exact hx ha
    · exact Or.inr ⟨pre, q, post ++ [x], by simp [h1], h2, h3⟩

theorem lookup_append_single {β : Type} (bs : List (String × β)) (n m : String) (v : β) :
    (bs ++ [(n, v)]).lookup m = none ↔ bs.lookup m = none ∧ m ≠ n := by
  rw [List.lookup_append]
  cases h : bs.lookup m with
  | some w => simp
  | none =>
    simp only [Option.none_or, true_and, List.lookup_cons, List.lookup_nil]
    by_cases hmn : m = n
    · subst hmn; simp
    · have : (m == n) = false := by simpa using hmn
      simp [this, hmn]

theorem bindings_append (l1 l2 : List (FnParaNode TypeNode)) (a1 a2 : List (Argument LType))
    (h : a1.length = l1.length) :
    bindings (l1 ++ l2) (a1 ++ a2) = bindings l1 a1 ++ bindings l2 a2 := by
  unfold bindings
  exact List.zipWith_append _ _ _ _ _ h.symm

theorem lookup_bindings_none :
    ∀ (cs : List (FnParaNode TypeNode)) (args : List (Argument LType)) (n : String),
      n ∉ cs.map (fun p => p.GetName) → (bindings cs args).lookup n = none := by
  intro cs
  induction cs with
  | nil => intro args n _; simp [bindings]
  | cons c cs ih =>
    intro args n hn
    cases args with
    | nil => simp [bindings]
    | cons a args =>
      simp only [List.map_cons, List.mem_cons, not_or] at hn
      have h1 : (n == c.GetName) = false := by simpa using hn.1
      have := ih args n hn.2
      simp only [bindings] at this
      simp [bindings, List.lookup_cons, h1, this]

theorem lookup_bindings_mem :
    ∀ (cs : List (FnParaNode TypeNode)) (args : List (Argument LType)) (n : String),
      args.length = cs.length → n ∈ cs.map (fun p => p.GetName) →
      ((bindings cs args).lookup n).isSome = true := by
  intro cs
  induction cs with
  | nil => intro args n _ hn; simp at hn
  | cons c cs ih =>
    intro args n hl hn
    cases args with
    | nil => simp at hl
    | cons a args =>
      by_cases h1 : n = c.GetName
      · subst h1
        simp [bindings]
      · have h2 : (n == c.GetName) = false := by simpa using h1
        simp only [List.map_cons, List.mem_cons, h1, false_or] at hn
        have := ih args n (by simpa using hl) hn
        simp only [bindings] at this
        simp [bindings, List.lookup_cons, h2, this]

theorem lookup_bindings_at (l1 l2 : List (FnParaNode TypeNode)) (p : FnParaNode TypeNode)
    (a1 a2 : List (Argument LType)) (a : Argument LType) (h : a1.length = l1.length)
    (hn : p.GetName ∉ l1.map (fun p => p.GetName)) :
    (bindings (l1 ++ p :: l2) (a1 ++ a :: a2)).lookup p.GetName = some (NativeValue.Create a) := by
  rw [bindings_append l1 (p :: l2) a1 (a :: a2) h, List.lookup_append,
    lookup_bindings_none l1 a1 _ hn]
  simp [bindings]

/-! ## The loop of `FillArgs` on a scope -/

theorem AddVar_cons (nm : String) (bs : List (String × NativeValue LType))
    (rest : List (Scope LType)) (n : String) (v : NativeValue LType) :
    (ScopeVar.mk (⟨nm, bs⟩ :: rest)).AddVar n v =
      match bs.lookup n with
      | some _ => (false, ⟨⟨nm, bs⟩ :: rest⟩)
      | none => (true, ⟨⟨nm, bs ++ [(n, v)]⟩ :: rest⟩) := by
  simp only [ScopeVar.AddVar, Scope.find]

theorem FillArgs_loop_append (nm : String) (rest : List (Scope LType)) (status : Status)
    (cs2 : List (FnParaNode TypeNode)) (args2 : List (Argument LType)) :
    ∀ (pre : List (FnParaNode TypeNode)) (apre : List (Argument LType))
      (bs : List (String × NativeValue LType)),
      apre.length = pre.length → (pre.map (fun p => p.GetName)).Nodup →
      (∀ p ∈ pre, bs.lookup p.GetName = none) →
      FillArgs.loop (apre ++ args2) (pre ++ cs2) ⟨⟨nm, bs⟩ :: rest⟩ status =
        FillArgs.loop args2 cs2 ⟨⟨nm, bs ++ bindings pre apre⟩ :: rest⟩ status := by
  intro pre
  induction pre with
  | nil =>
    intro apre bs hl _ _
    cases apre with
    | nil => simp [bindings]
    | cons a apre => simp at hl
  | cons c pre ih =>
    intro apre bs hl hn hb
    cases apre with
    | nil => simp at hl
    | cons a apre =>
      have hc : bs.lookup c.GetName = none := hb c (List.mem_cons_self _ _)
      simp only [List.map_cons, List.nodup_cons] at hn
      show FillArgs.loop (a :: (apre ++ args2)) (c :: (pre ++ cs2)) _ status = _
      rw [FillArgs.loop, AddVar_cons, hc]
      simp only []
      rw [ih apre (bs ++ [(c.GetName, NativeValue.Create a)]) (by simpa using hl) hn.2]
      · simp [bindings]
      · intro p hp
        rw [lookup_append_single]
        refine ⟨hb p (List.mem_cons_of_mem _ hp), ?_⟩
        intro e
        exact hn.1 (e ▸ List.mem_map_of_mem (fun p => p.GetName) hp)

theorem FillArgs_loop_nodup (nm : String) (rest : List (Scope LType)) (status : Status)
    (cs : List (FnParaNode TypeNode)) (args : List (Argument LType))
    (hl : args.length = cs.length) (hn : (cs.map (fun p => p.GetName)).Nodup) :
    FillArgs.loop args cs ⟨⟨nm, []⟩ :: rest⟩ status =
      (true, ⟨⟨nm, bindings cs args⟩ :: rest⟩, status) := by
  have h := FillArgs_loop_append nm rest status [] [] cs args [] hl hn (by simp)
  simp only [List.append_nil, List.nil_append] at h
  rw [h]
  rfl

theorem FillArgs_loop_dup (nm : String) (rest : List (Scope LType)) (status : Status)
    (pre : List (FnParaNode TypeNode)) (q : FnParaNode TypeNode)
    (post : List (FnParaNode TypeNode)) (apre : List (Argument LType)) (a : Argument LType)
    (apost : List (Argument LType)) (hl : apre.length = pre.length)
    (hn : (pre.map (fun p => p.GetName)).Nodup)
    (hq : q.GetName ∈ pre.map (fun p => p.GetName)) :
    FillArgs.loop (apre ++ a :: apost) (pre ++ q :: post) ⟨⟨nm, []⟩ :: rest⟩ status =
      (false, ⟨⟨nm, bindings pre apre⟩ :: rest⟩,
        ⟨StatusCode.kCodegenError, "fail to define var " ++ q.GetName⟩) := by
  rw [FillArgs_loop_append nm rest status (q :: post) (a :: apost) pre apre [] hl hn (by simp)]
  have hs := lookup_bindings_mem pre apre q.GetName hl hq
  rw [FillArgs.loop, AddVar_cons]
  simp only [List.nil_append]
  cases hk : List.lookup q.GetName (bindings pre apre) with
  | none => simp [hk] at hs
  | some v => rfl

theorem split_of_length {α β : Type} (pre : List α) (x : α) (post : List α) (l : List β)
    (h : l.length = (pre ++ x :: post).length) :
    ∃ l1 y l2, l = l1 ++ y :: l2 ∧ l1.length = pre.length := by
  have hlt : pre.length < l.length := by
    rw [h]; simp
  refine ⟨l.take pre.length, l.get ⟨pre.length, hlt⟩, l.drop (pre.length + 1), ?_, ?_⟩
  · simp
  · simp
    omega

theorem FillArgs_loop_ok_iff (nm : String) (rest : List (Scope LType)) (status : Status)
    (cs : List (FnParaNode TypeNode)) (args : List (Argument LType))
    (hl : args.length = cs.length) :
    (FillArgs.loop args cs ⟨⟨nm, []⟩ :: rest⟩ status).1 =
      decide ((cs.map (fun p => p.GetName)).Nodup) := by
  rcases nodup_or_first_dup cs with h | ⟨pre, q, post, h1, h2, h3⟩
  · rw [FillArgs_loop_nodup nm rest status cs args hl h]
    simp [h]
  · subst h1
    obtain ⟨apre, a, apost, e1, e2⟩ := split_of_length pre q post args hl
    subst e1
    rw [FillArgs_loop_dup nm rest status pre q post apre a apost e2 h2 h3]
    have : ¬ ((pre ++ q :: post).map (fun p => p.GetName)).Nodup := by
      rw [List.map_append, List.nodup_append]
      intro hh
      exact hh.2.2 h3 (by simp)
    simp only [this, decide_False]

theorem getFunction_some_name (m : Module LType) (n : String) (f : Function LType)
    (h : m.getFunction n = some f) : f.name = n := by
  have := List.find?_some h
  simpa using this

/-! ## Normal forms of `BuildFnHead` -/

end Lemmas

section NormalForms

variable {TypeNode LType : Type} [DecidableEq LType]

theorem CreateFunction_null_fn (env : CodegenEnv TypeNode LType)
    (h : Option (FnNodeFnHeander TypeNode)) (st : St LType) (hfn : st.fn = none) :
    CreateFunction env h st =
      .returned false { st with status := ⟨StatusCode.kCodegenError, "input is null"⟩ } := by
  cases h <;> simp [CreateFunction, hfn]

theorem CreateFunction_ret_unmappable (env : CodegenEnv TypeNode LType)
    (h : FnNodeFnHeander TypeNode) (st : St LType) (slot : Option (Callee LType))
    (hfn : st.fn = some slot) (hrt : env.GetLLVMType h.ret_type_ = none) :
    CreateFunction env (some h) st =
      .returned false
        { st with status := ⟨StatusCode.kCodegenError, "fail to get llvm type"⟩ } := by
  simp [CreateFunction, hfn, hrt]

theorem CreateFunction_unmappable (env : CodegenEnv TypeNode LType)
    (h : FnNodeFnHeander TypeNode) (st : St LType) (rt : LType) (slot : Option (Callee LType))
    (pre : List (FnParaNode TypeNode)) (p : FnParaNode TypeNode)
    (post : List (FnParaNode TypeNode)) (tys : List LType)
    (hrt : env.GetLLVMType h.ret_type_ = some rt) (hfn : st.fn = some slot)
    (hps : h.paras = pre ++ p :: post)
    (hpre : pre.map (fun p => env.GetLLVMType p.GetParaType) = tys.map some)
    (hp : env.GetLLVMType p.GetParaType = none) :
    CreateFunction env (some h) st =
      .returned false
        { st with status :=
            ⟨StatusCode.kCodegenError, "fail to get primary type for pname " ++ p.GetName⟩ } := by
  cases hpar : h.parameters_ with
  | none => simp [FnNodeFnHeander.paras, hpar] at hps
  | some ps =>
    simp only [FnNodeFnHeander.paras, hpar] at hps
    have hb := BuildParas_loop_fail env pre tys p post [] st.status hpre hp
    simp [CreateFunction, hfn, hrt, hpar, BuildParas, hps, hb]

theorem CreateFunction_eq (env : CodegenEnv TypeNode LType)
    (h : FnNodeFnHeander TypeNode) (st : St LType) (rt : LType) (slot : Option (Callee LType))
    (tys : List LType)
    (hrt : env.GetLLVMType h.ret_type_ = some rt) (hfn : st.fn = some slot)
    (htys : h.paras.map (fun p => env.GetLLVMType p.GetParaType) = tys.map some) :
    CreateFunction env (some h) st =
      .returned true
        { st with
          module_ := (st.module_.getOrInsertFunction (env.GeIRFunctionName h) ⟨rt, tys⟩).2,
          fn := some (some (st.module_.getOrInsertFunction (env.GeIRFunctionName h) ⟨rt, tys⟩).1) } := by
  cases hpar : h.parameters_ with
  | none =>
    simp only [FnNodeFnHeander.paras, hpar] at htys
    cases tys with
    | nil => simp [CreateFunction, hfn, hrt, hpar]
    | cons t ts => simp at htys
  | some ps =>
    simp only [FnNodeFnHeander.paras, hpar] at htys
    have hb := BuildParas_loop_ok env ps.children tys [] st.status htys
    simp [CreateFunction, hfn, hrt, hpar, BuildParas, hb]

theorem BuildFnHead_null_fn (env : CodegenEnv TypeNode LType) (fuel : Nat)
    (h : FnNodeFnHeander TypeNode) (st : St LType) (hfn : st.fn = none) :
    ∃ st1, BuildFnHead env (fuel + 1) (some h) st = .returned false st1 ∧
      st1.module_ = st.module_ ∧ st1.fn = none := by
  cases hrt : env.GetLLVMType h.ret_type_ with
  | none =>
    exact ⟨{ st with status := ⟨StatusCode.kCodegenError, "fail to get llvm type"⟩ },
      by simp [BuildFnHead, hrt], rfl, hfn⟩
  | some rt =>
    cases hagg : env.IsStructPtr rt with
    | true =>
      exact ⟨{ st with rewrites := st.rewrites + 1,
                       status := ⟨StatusCode.kCodegenError, "input is null"⟩ },
        by simp [BuildFnHead, hrt, hagg, BuildFnHeadWithRetStruct, hfn], rfl, hfn⟩
    | false =>
      refine ⟨{ st with status := ⟨StatusCode.kCodegenError, "input is null"⟩ }, ?_, rfl, hfn⟩
      simp [BuildFnHead, hrt, hagg, CreateFunction_null_fn env (some h) st hfn]

theorem BuildFnHead_ret_unmappable (env : CodegenEnv TypeNode LType) (fuel : Nat)
    (h : FnNodeFnHeander TypeNode) (st : St LType)
    (hrt : env.GetLLVMType h.ret_type_ = none) :
    BuildFnHead env (fuel + 1) (some h) st =
      .returned false
        { st with status := ⟨StatusCode.kCodegenError, "fail to get llvm type"⟩ } := by
  simp [BuildFnHead, hrt]

theorem BuildFnHead_agg_eq (env : CodegenEnv TypeNode LType) (fuel : Nat)
    (h : FnNodeFnHeander TypeNode) (st : St LType) (rt : LType) (slot : Option (Callee LType))
    (ps : FnNodeList TypeNode)
    (hrt : env.GetLLVMType h.ret_type_ = some rt) (hagg : env.IsStructPtr rt = true)
    (hfn : st.fn = some slot) (hps : h.parameters_ = some ps) :
    BuildFnHead env (fuel + 1) (some h) st =
      BuildFnHead env fuel (some (retStructHeader env h ps.children))
        { st with rewrites := st.rewrites + 1 } := by
  simp only [BuildFnHead, hrt, hagg, if_true, BuildFnHeadWithRetStruct, hfn, hps, foldl_AddChild]
  simp [FnNodeList.AddChild, retStructHeader]

theorem BuildFnHead_agg_null_paras (env : CodegenEnv TypeNode LType) (fuel : Nat)
    (h : FnNodeFnHeander TypeNode) (st : St LType) (rt : LType) (slot : Option (Callee LType))
    (hrt : env.GetLLVMType h.ret_type_ = some rt) (hagg : env.IsStructPtr rt = true)
    (hfn : st.fn = some slot) (hps : h.parameters_ = none) :
    BuildFnHead env (fuel + 1) (some h) st =
      .nullDeref { st with rewrites := st.rewrites + 1 } := by
  simp [BuildFnHead, hrt, hagg, BuildFnHeadWithRetStruct, hfn, hps]

theorem BuildFnHead_nonagg_unmappable (env : CodegenEnv TypeNode LType) (fuel : Nat)
    (h : FnNodeFnHeander TypeNode) (st : St LType) (rt : LType) (slot : Option (Callee LType))
    (pre : List (FnParaNode TypeNode)) (p : FnParaNode TypeNode)
    (post : List (FnParaNode TypeNode)) (tys : List LType)
    (hrt : env.GetLLVMType h.ret_type_ = some rt) (hagg : env.IsStructPtr rt = false)
    (hfn : st.fn = some slot) (hps : h.paras = pre ++ p :: post)
    (hpre : pre.map (fun p => env.GetLLVMType p.GetParaType) = tys.map some)
    (hp : env.GetLLVMType p.GetParaType = none) :
    BuildFnHead env (fuel + 1) (some h) st =
      .returned false
        { st with status :=
            ⟨StatusCode.kCodegenError, "fail to get primary type for pname " ++ p.GetName⟩ } := by
  simp [BuildFnHead, hrt, hagg,
    CreateFunction_unmappable env h st rt slot pre p post tys hrt hfn hps hpre hp]

theorem BuildFnHead_nonagg_eq (env : CodegenEnv TypeNode LType) (fuel : Nat)
    (h : FnNodeFnHeander TypeNode) (st : St LType) (rt : LType) (slot : Option (Callee LType))
    (tys : List LType)
    (hrt : env.GetLLVMType h.ret_type_ = some rt) (hagg : env.IsStructPtr rt = false)
    (hfn : st.fn = some slot)
    (htys : h.paras.map (fun p => env.GetLLVMType p.GetParaType) = tys.map some) :
    BuildFnHead env (fuel + 1) (some h) st =
      match st.module_.getFunction (env.GeIRFunctionName h) with
      | none =>
        finishHead h (env.GeIRFunctionName h) ⟨rt, tys⟩
          ⟨st.module_.functions ++ [⟨env.GeIRFunctionName h, ⟨rt, tys⟩, []⟩]⟩ st
      | some f =>
        if f.type = ⟨rt, tys⟩ then
          finishHead h (env.GeIRFunctionName h) ⟨rt, tys⟩ st.module_ st
        else
          .notAFunction
            { st with fn := some (some (Callee.bitcast (env.GeIRFunctionName h) ⟨rt, tys⟩)) } := by
  simp only [BuildFnHead, hrt, hagg, CreateFunction_eq env h st rt slot tys hrt hfn htys,
    Module.getOrInsertFunction]
  cases hg : st.module_.getFunction (env.GeIRFunctionName h) with
  | none =>
    cases hpar : h.parameters_ with
    | none =>
      simp only [FnNodeFnHeander.paras, hpar] at htys
      cases tys with
      | nil => simp [finishHead, FnNodeFnHeander.paras, hpar, argsFrom, FillArgs.loop]
      | cons t ts => simp at htys
    | some ps =>
      simp only [finishHead, FnNodeFnHeander.paras, hpar, FillArgs, Callee.args]
      generalize FillArgs.loop _ _ _ _ = r
      rcases r with ⟨_ | _, sv3, s3⟩ <;> rfl
  | some f =>
    have hname := getFunction_some_name _ _ _ hg
    by_cases hty : f.type = ⟨rt, tys⟩
    · cases hpar : h.parameters_ with
      | none =>
        simp only [FnNodeFnHeander.paras, hpar] at htys
        cases tys with
        | nil =>
          simp [finishHead, FnNodeFnHeander.paras, hpar, argsFrom, FillArgs.loop, hty, hname]
        | cons t ts => simp at htys
      | some ps =>
        simp only [finishHead, FnNodeFnHeander.paras, hpar, FillArgs, Callee.args, hty, hname,
          if_true, Bool.false_eq_true, if_false]
        generalize FillArgs.loop _ _ _ _ = r
        rcases r with ⟨_ | _, sv3, s3⟩ <;> rfl
    · simp [hty, hname]

theorem getFunction_append_new (m : Module LType) (n : String) (ft : FunctionType LType)
    (h : m.getFunction n = none) :
    (Module.mk (m.functions ++ [⟨n, ft, []⟩])).getFunction n = some ⟨n, ft, []⟩ := by
  simp only [Module.getFunction] at h ⊢
  rw [List.find?_append, h]
  simp

theorem finishHead_nodup (h : FnNodeFnHeander TypeNode) (name : String)
    (ft : FunctionType LType) (m : Module LType) (st : St LType)
    (hl : ft.params.length = h.paras.length)
    (hn : (h.paras.map (fun p => p.GetName)).Nodup) :
    finishHead h name ft m st =
      .returned true
        ⟨m, ⟨⟨name, bindings h.paras (argsFrom name 0 ft.params)⟩ :: st.sv.scopes_⟩,
          some (some (Callee.function name ft)), st.status, st.rewrites⟩ := by
  have hl2 : (argsFrom name 0 ft.params).length = h.paras.length := by
    rw [argsFrom_length, hl]
  simp only [finishHead, ScopeVar.Enter]
  rw [FillArgs_loop_nodup name st.sv.scopes_ st.status h.paras _ hl2 hn]

theorem finishHead_dup (h : FnNodeFnHeander TypeNode) (name : String)
    (ft : FunctionType LType) (m : Module LType) (st : St LType)
    (pre : List (FnParaNode TypeNode)) (q : FnParaNode TypeNode)
    (post : List (FnParaNode TypeNode))
    (hl : ft.params.length = h.paras.length)
    (hps : h.paras = pre ++ q :: post)
    (hn : (pre.map (fun p => p.GetName)).Nodup)
    (hq : q.GetName ∈ pre.map (fun p => p.GetName)) :
    finishHead h name ft m st =
      .returned false
        ⟨m, ⟨⟨name, bindings pre (argsFrom name 0 (ft.params.take pre.length))⟩ :: st.sv.scopes_⟩,
          some (some (Callee.function name ft)),
          ⟨StatusCode.kCodegenError, "fail to define var " ++ q.GetName⟩, st.rewrites⟩ := by
  have hlt : pre.length < ft.params.length := by
    rw [hl, hps]; simp
  have hsplit : ft.params = ft.params.take pre.length ++
      ft.params.get ⟨pre.length, hlt⟩ :: ft.params.drop (pre.length + 1) := by
    simp
  have hl1 : (ft.params.take pre.length).length = pre.length := by
    simp; omega
  have hl2 : (argsFrom name 0 (ft.params.take pre.length) : List (Argument LType)).length
      = pre.length := by
    rw [argsFrom_length, hl1]
  simp only [finishHead, ScopeVar.Enter, hps]
  have e : argsFrom name 0 ft.params =
      argsFrom name 0 (ft.params.take pre.length) ++
        (⟨name, 0 + (ft.params.take pre.length).length, ft.params.get ⟨pre.length, hlt⟩⟩ ::
          argsFrom name (0 + (ft.params.take pre.length).length + 1)
            (ft.params.drop (pre.length + 1))) := by
    conv => lhs; rw [hsplit]
    rw [argsFrom_append]
    rfl
  rw [e, FillArgs_loop_dup name st.sv.scopes_ st.status pre q post _ _ _ hl2 hn hq]

theorem finishHead_inv (h : FnNodeFnHeander TypeNode) (name : String)
    (ft : FunctionType LType) (m : Module LType) (st st1 : St LType) (b : Bool)
    (hl : ft.params.length = h.paras.length)
    (hr : finishHead h name ft m st = .returned b st1) :
    st1.module_ = m ∧ st1.fn = some (some (Callee.function name ft)) ∧
      st1.rewrites = st.rewrites ∧
      (b = false → ∃ q, q ∈ h.paras ∧
        st1.status = ⟨StatusCode.kCodegenError, "fail to define var " ++ q.GetName⟩) := by
  rcases nodup_or_first_dup h.paras with hn | ⟨pre, q, post, h1, h2, h3⟩
  · rw [finishHead_nodup h name ft m st hl hn] at hr
    injection hr with hb hs
    subst hb; subst hs
    exact ⟨rfl, rfl, rfl, by simp⟩
  · rw [finishHead_dup h name ft m st pre q post hl h1 h2 h3] at hr
    injection hr with hb hs
    subst hb; subst hs
    exact ⟨rfl, rfl, rfl, fun _ => ⟨q, by simp [h1], rfl⟩⟩

theorem finishHead_true_inv (h : FnNodeFnHeander TypeNode) (name : String)
    (ft : FunctionType LType) (m : Module LType) (st st1 : St LType)
    (hl : ft.params.length = h.paras.length)
    (hr : finishHead h name ft m st = .returned true st1) :
    (h.paras.map (fun p => p.GetName)).Nodup ∧
      st1 = ⟨m, ⟨⟨name, bindings h.paras (argsFrom name 0 ft.params)⟩ :: st.sv.scopes_⟩,
          some (some (Callee.function name ft)), st.status, st.rewrites⟩ := by
  rcases nodup_or_first_dup h.paras with hn | ⟨pre, q, post, h1, h2, h3⟩
  · rw [finishHead_nodup h name ft m st hl hn] at hr
    injection hr with hb hs
    exact ⟨hn, hs.symm⟩
  · rw [finishHead_dup h name ft m st pre q post hl h1 h2 h3] at hr
    injection hr with hb hs
    simp at hb

theorem length_of_mappable (env : CodegenEnv TypeNode LType) (cs : List (FnParaNode TypeNode))
    (tys : List LType)
    (htys : cs.map (fun p => env.GetLLVMType p.GetParaType) = tys.map some) :
    tys.length = cs.length := by
  have := congrArg List.length htys
  simpa using this.symm

/-- What a successful `BuildFnHead` leaves when the return type is not an
aggregate. -/
theorem BuildFnHead_nonagg_true_inv (env : CodegenEnv TypeNode LType) (fuel : Nat)
    (h : FnNodeFnHeander TypeNode) (st st1 : St LType) (rt : LType)
    (hrt : env.GetLLVMType h.ret_type_ = some rt) (hagg : env.IsStructPtr rt = false)
    (hok : BuildFnHead env (fuel + 1) (some h) st = .returned true st1) :
    ∃ (tys : List LType) (m : Module LType),
      h.paras.map (fun p => env.GetLLVMType p.GetParaType) = tys.map some ∧
      (h.paras.map (fun p => p.GetName)).Nodup ∧
      st1 = ⟨m, ⟨⟨env.GeIRFunctionName h,
              bindings h.paras (argsFrom (env.GeIRFunctionName h) 0 tys)⟩ :: st.sv.scopes_⟩,
          some (some (Callee.function (env.GeIRFunctionName h) ⟨rt, tys⟩)), st.status,
          st.rewrites⟩ ∧
      (∃ f, m.getFunction (env.GeIRFunctionName h) = some f ∧ f.type = ⟨rt, tys⟩) ∧
      m = (st.module_.getOrInsertFunction (env.GeIRFunctionName h) ⟨rt, tys⟩).2 := by
  cases hfn : st.fn with
  | none =>
    obtain ⟨s, hs, _⟩ := BuildFnHead_null_fn env fuel h st hfn
    rw [hs] at hok
    injection hok with hb _
    simp at hb
  | some slot =>
    rcases mappable_or_first_unmappable env h.paras with ⟨tys, htys⟩ | ⟨pre, p, post, tys, h1, h2, h3⟩
    · have hl : (FunctionType.mk rt tys).params.length = h.paras.length :=
        length_of_mappable env h.paras tys htys
      rw [BuildFnHead_nonagg_eq env fuel h st rt slot tys hrt hagg hfn htys] at hok
      cases hg : st.module_.getFunction (env.GeIRFunctionName h) with
      | none =>
        rw [hg] at hok
        obtain ⟨hn, hs⟩ := finishHead_true_inv h _ _ _ st st1 hl hok
        refine ⟨tys, _, htys, hn, hs, ⟨_, getFunction_append_new _ _ _ hg, rfl⟩, ?_⟩
        simp [Module.getOrInsertFunction, hg]
      | some f =>
        rw [hg] at hok
        by_cases hty : f.type = ⟨rt, tys⟩
        · simp only [hty, if_true] at hok
          obtain ⟨hn, hs⟩ := finishHead_true_inv h _ _ _ st st1 hl hok
          refine ⟨tys, _, htys, hn, hs, ⟨f, hg, hty⟩, ?_⟩
          simp [Module.getOrInsertFunction, hg, hty]
        · simp [hty] at hok
    · rw [BuildFnHead_nonagg_unmappable env fuel h st rt slot pre p post tys hrt hagg hfn h1 h2 h3]
        at hok
      injection hok with hb _
      simp at hb

/-- What a failing `BuildFnHead` leaves of the module when the return type is
not an aggregate. -/
theorem BuildFnHead_nonagg_false_inv (env : CodegenEnv TypeNode LType) (fuel : Nat)
    (h : FnNodeFnHeander TypeNode) (st st1 : St LType) (rt : LType)
    (hrt : env.GetLLVMType h.ret_type_ = some rt) (hagg : env.IsStructPtr rt = false)
    (hok : BuildFnHead env (fuel + 1) (some h) st = .returned false st1) :
    st1.module_ = st.module_ ∨
      ∃ (q : FnParaNode TypeNode) (fname : String) (ftype : FunctionType LType),
        st1.status = ⟨StatusCode.kCodegenError, "fail to define var " ++ q.GetName⟩ ∧
        st1.fn = some (some (Callee.function fname ftype)) ∧
        st1.module_ = (st.module_.getOrInsertFunction fname ftype).2 := by
  cases hfn : st.fn with
  | none =>
    obtain ⟨s, hs, hm, _⟩ := BuildFnHead_null_fn env fuel h st hfn
    rw [hs] at hok
    injection hok with _ hs1
    subst hs1
    exact Or.inl hm
  | some slot =>
    rcases mappable_or_first_unmappable env h.paras with ⟨tys, htys⟩ | ⟨pre, p, post, tys, h1, h2, h3⟩
    · have hl : (FunctionType.mk rt tys).params.length = h.paras.length :=
        length_of_mappable env h.paras tys htys
      rw [BuildFnHead_nonagg_eq env fuel h st rt slot tys hrt hagg hfn htys] at hok
      cases hg : st.module_.getFunction (env.GeIRFunctionName h) with
      | none =>
        rw [hg] at hok
        obtain ⟨hm, hf, _, hq⟩ := finishHead_inv h _ _ _ st st1 false hl hok
        obtain ⟨q, _, hq⟩ := hq rfl
        refine Or.inr ⟨q, _, _, hq, hf, ?_⟩
        simp [Module.getOrInsertFunction, hg, hm]
      | some f =>
        rw [hg] at hok
        by_cases hty : f.type = ⟨rt, tys⟩
        · simp only [hty, if_true] at hok
          obtain ⟨hm, _, _, _⟩ := finishHead_inv h _ _ _ st st1 false hl hok
          exact Or.inl hm
        · simp [hty] at hok
    · rw [BuildFnHead_nonagg_unmappable env fuel h st rt slot pre p post tys hrt hagg hfn h1 h2 h3]
        at hok
      injection hok with _ hs1
      subst hs1
      exact Or.inl rfl

theorem lookup_bindings_getElem (name : String) (cs : List (FnParaNode TypeNode))
    (tys : List LType) (k : Nat) (p : FnParaNode TypeNode) (t : LType)
    (hn : (cs.map (fun p => p.GetName)).Nodup)
    (hp : cs[k]? = some p) (ht : tys[k]? = some t) :
    (bindings cs (argsFrom name 0 tys)).lookup p.GetName =
      some (NativeValue.Create ⟨name, k, t⟩) := by
  obtain ⟨l1, l2, e1, e2⟩ := split_at_getElem? cs k p hp
  obtain ⟨t1, t2, e3, e4⟩ := split_at_getElem? tys k t ht
  subst e1; subst e3
  rw [List.map_append, List.nodup_append] at hn
  have hnot : p.GetName ∉ l1.map (fun p => p.GetName) := by
    intro hmem
    exact hn.2.2 hmem (by simp)
  have hl : (argsFrom name 0 t1 : List (Argument LType)).length = l1.length := by
    rw [argsFrom_length, e4, e2]
  rw [argsFrom_append]
  show List.lookup p.GetName (bindings (l1 ++ p :: l2)
    (argsFrom name 0 t1 ++ (⟨name, 0 + t1.length, t⟩ :: argsFrom name (0 + t1.length + 1) t2))) = _
  rw [lookup_bindings_at l1 l2 p _ _ _ hl hnot]
  simp [e4]

theorem BuildFnHead_bool_agg_never (env : CodegenEnv TypeNode LType) (bt : LType)
    (hb : env.GetLLVMType env.kBool = some bt) (hbagg : env.IsStructPtr bt = true) :
    ∀ (fuel : Nat) (h : FnNodeFnHeander TypeNode) (st st1 : St LType),
      h.ret_type_ = env.kBool → BuildFnHead env fuel (some h) st ≠ .returned true st1 := by
  intro fuel
  induction fuel with
  | zero => intro h st st1 _ hc; simp [BuildFnHead] at hc
  | succ fuel ih =>
    intro h st st1 hret hc
    have hrt : env.GetLLVMType h.ret_type_ = some bt := by rw [hret]; exact hb
    cases hfn : st.fn with
    | none =>
      obtain ⟨s, hs, _⟩ := BuildFnHead_null_fn env fuel h st hfn
      rw [hs] at hc
      injection hc with hb _
      simp at hb
    | some slot =>
      cases hps : h.parameters_ with
      | none =>
        rw [BuildFnHead_agg_null_paras env fuel h st bt slot hrt hbagg hfn hps] at hc
        cases hc
      | some ps =>
        rw [BuildFnHead_agg_eq env fuel h st bt slot ps hrt hbagg hfn hps] at hc
        exact ih _ _ _ rfl hc

/-- A successful `BuildFnHead` on a header whose return type maps to an
aggregate is a successful `BuildFnHead` on the rewritten header, whose boolean
return type is not an aggregate. -/
theorem BuildFnHead_agg_true_inv (env : CodegenEnv TypeNode LType) (fuel : Nat)
    (h : FnNodeFnHeander TypeNode) (st st1 : St LType) (rt : LType)
    (hrt : env.GetLLVMType h.ret_type_ = some rt) (hagg : env.IsStructPtr rt = true)
    (hok : BuildFnHead env fuel (some h) st = .returned true st1) :
    ∃ (ps : FnNodeList TypeNode) (bt : LType) (fuel1 : Nat),
      h.parameters_ = some ps ∧ env.GetLLVMType env.kBool = some bt ∧
      env.IsStructPtr bt = false ∧
      BuildFnHead env (fuel1 + 1) (some (retStructHeader env h ps.children))
        { st with rewrites := st.rewrites + 1 } = .returned true st1 := by
  cases fuel with
  | zero => simp [BuildFnHead] at hok
  | succ fuel =>
    cases hfn : st.fn with
    | none =>
      obtain ⟨s, hs, _⟩ := BuildFnHead_null_fn env fuel h st hfn
      rw [hs] at hok
      injection hok with hb _
      simp at hb
    | some slot =>
      cases hps : h.parameters_ with
      | none =>
        rw [BuildFnHead_agg_null_paras env fuel h st rt slot hrt hagg hfn hps] at hok
        cases hok
      | some ps =>
        rw [BuildFnHead_agg_eq env fuel h st rt slot ps hrt hagg hfn hps] at hok
        cases fuel with
        | zero => simp [BuildFnHead] at hok
        | succ fuel1 =>
          cases hb : env.GetLLVMType env.kBool with
          | none =>
            rw [BuildFnHead_ret_unmappable env fuel1 _ _ (by simpa [retStructHeader] using hb)]
              at hok
            injection hok with hb _
            simp at hb
          | some bt =>
            cases hbagg : env.IsStructPtr bt with
            | true =>
              exact absurd hok (BuildFnHead_bool_agg_never env bt hb hbagg _ _ _ _ rfl)
            | false => exact ⟨ps, bt, fuel1, rfl, rfl, hbagg, by simpa only [hfn] using hok⟩

/-- What a successful `BuildFnHead` leaves, in terms of the header that is
declared. -/
theorem BuildFnHead_true_inv (env : CodegenEnv TypeNode LType) (fuel : Nat)
    (h : FnNodeFnHeander TypeNode) (st st1 : St LType)
    (hok : BuildFnHead env fuel (some h) st = .returned true st1) :
    ∃ (rt : LType) (tys : List LType) (m : Module LType),
      env.GetLLVMType (rewrittenHeader env h).ret_type_ = some rt ∧
      env.IsStructPtr rt = false ∧
      (rewrittenHeader env h).paras.map (fun p => env.GetLLVMType p.GetParaType) = tys.map some ∧
      ((rewrittenHeader env h).paras.map (fun p => p.GetName)).Nodup ∧
      st1 = ⟨m, ⟨⟨env.GeIRFunctionName (rewrittenHeader env h),
              bindings (rewrittenHeader env h).paras
                (argsFrom (env.GeIRFunctionName (rewrittenHeader env h)) 0 tys)⟩ :: st.sv.scopes_⟩,
          some (some (Callee.function (env.GeIRFunctionName (rewrittenHeader env h)) ⟨rt, tys⟩)),
          st.status, st.rewrites + (if returnsAggregate env h then 1 else 0)⟩ ∧
      (∃ f, m.getFunction (env.GeIRFunctionName (rewrittenHeader env h)) = some f ∧
        f.type = ⟨rt, tys⟩) ∧
      m = (st.module_.getOrInsertFunction (env.GeIRFunctionName (rewrittenHeader env h))
            ⟨rt, tys⟩).2 := by
  cases hrt : env.GetLLVMType h.ret_type_ with
  | none =>
    cases fuel with
    | zero => simp [BuildFnHead] at hok
    | succ fuel =>
      rw [BuildFnHead_ret_unmappable env fuel h st hrt] at hok
      injection hok with hb _
      simp at hb
  | some rt0 =>
    cases hagg : env.IsStructPtr rt0 with
    | false =>
      have hra : returnsAggregate env h = false := by simp [returnsAggregate, hrt, hagg]
      have hrw : rewrittenHeader env h = h := by simp [rewrittenHeader, hra]
      cases fuel with
      | zero => simp [BuildFnHead] at hok
      | succ fuel =>
        obtain ⟨tys, m, h1, h2, h3, h4, h5⟩ :=
          BuildFnHead_nonagg_true_inv env fuel h st st1 rt0 hrt hagg hok
        rw [hrw, hra]
        exact ⟨rt0, tys, m, hrt, hagg, h1, h2, by simpa using h3, h4, h5⟩
    | true =>
      have hra : returnsAggregate env h = true := by simp [returnsAggregate, hrt, hagg]
      obtain ⟨ps, bt, fuel1, hps, hb, hbagg, hok1⟩ :=
        BuildFnHead_agg_true_inv env fuel h st st1 rt0 hrt hagg hok
      have hpar : h.paras = ps.children := by simp [FnNodeFnHeander.paras, hps]
      have hrw : rewrittenHeader env h = retStructHeader env h ps.children := by
        simp [rewrittenHeader, hra, hpar]
      obtain ⟨tys, m, h1, h2, h3, h4, h5⟩ :=
        BuildFnHead_nonagg_true_inv env fuel1 (retStructHeader env h ps.children) _ st1 bt
          (by simpa [retStructHeader] using hb) hbagg hok1
      rw [hrw, hra]
      exact ⟨bt, tys, m, by simpa [retStructHeader] using hb, hbagg, h1, h2,
        by simpa using h3, h4, h5⟩

theorem mappable_of_all_some (env : CodegenEnv TypeNode LType) :
    ∀ (cs : List (FnParaNode TypeNode)),
      (∀ q ∈ cs, (env.GetLLVMType q.GetParaType).isSome = true) →
      ∃ tys : List LType, cs.map (fun p => env.GetLLVMType p.GetParaType) = tys.map some := by
  intro cs
  induction cs with
  | nil => intro _; exact ⟨[], rfl⟩
  | cons c cs ih =>
    intro hall
    obtain ⟨tys, htys⟩ := ih (fun q hq => hall q (List.mem_cons_of_mem _ hq))
    have hc := hall c (List.mem_cons_self _ _)
    cases hct : env.GetLLVMType c.GetParaType with
    | none => simp [hct] at hc
    | some t => exact ⟨t :: tys, by simp [hct, htys]⟩

theorem BuildFnHead_final_fuel (env : CodegenEnv TypeNode LType) (f1 f2 : Nat)
    (h : FnNodeFnHeander TypeNode) (st : St LType) (hra : returnsAggregate env h = false) :
    BuildFnHead env (f1 + 1) (some h) st = BuildFnHead env (f2 + 1) (some h) st := by
  cases hrt : env.GetLLVMType h.ret_type_ with
  | none => simp [BuildFnHead, hrt]
  | some rt =>
    have hagg : env.IsStructPtr rt = false := by simpa [returnsAggregate, hrt] using hra
    simp only [BuildFnHead, hrt, hagg, Bool.false_eq_true, if_false]

theorem finishHead_state (h : FnNodeFnHeander TypeNode) (name : String)
    (ft : FunctionType LType) (m : Module LType) (st : St LType) :
    ∃ st1, (finishHead h name ft m st).state = some st1 ∧ st1.rewrites = st.rewrites :=
  ⟨_, rfl, rfl⟩

theorem BuildFnHead_final_rewrites (env : CodegenEnv TypeNode LType) (fuel : Nat)
    (h : FnNodeFnHeander TypeNode) (st : St LType) (hra : returnsAggregate env h = false) :
    ∃ st1, (BuildFnHead env (fuel + 1) (some h) st).state = some st1 ∧
      st1.rewrites = st.rewrites := by
  cases hrt : env.GetLLVMType h.ret_type_ with
  | none =>
    rw [BuildFnHead_ret_unmappable env fuel h st hrt]
    exact ⟨_, rfl, rfl⟩
  | some rt =>
    have hagg : env.IsStructPtr rt = false := by simpa [returnsAggregate, hrt] using hra
    cases hfn : st.fn with
    | none =>
      refine ⟨{ st with status := ⟨StatusCode.kCodegenError, "input is null"⟩ }, ?_, rfl⟩
      simp [BuildFnHead, hrt, hagg, CreateFunction_null_fn env (some h) st hfn, Outcome.state]
    | some slot =>
      rcases mappable_or_first_unmappable env h.paras with
        ⟨tys, htys⟩ | ⟨pre, p, post, tys, h1, h2, h3⟩
      · rw [BuildFnHead_nonagg_eq env fuel h st rt slot tys hrt hagg hfn htys]
        cases hg : st.module_.getFunction (env.GeIRFunctionName h) with
        | none => exact finishHead_state _ _ _ _ _
        | some f =>
          by_cases hty : f.type = ⟨rt, tys⟩
          · simp only [hty, if_true]
            exact finishHead_state _ _ _ _ _
          · simp only [hty, if_false]
            exact ⟨_, rfl, rfl⟩
      · rw [BuildFnHead_nonagg_unmappable env fuel h st rt slot pre p post tys hrt hagg hfn
          h1 h2 h3]
        exact ⟨_, rfl, rfl⟩

theorem returnsAggregate_retStructHeader (env : CodegenEnv TypeNode LType)
    (hbool : ∀ bt, env.GetLLVMType env.kBool = some bt → env.IsStructPtr bt = false)
    (h : FnNodeFnHeander TypeNode) (cs : List (FnParaNode TypeNode)) :
    returnsAggregate env (retStructHeader env h cs) = false := by
  simp only [returnsAggregate, retStructHeader]
  cases hb : env.GetLLVMType env.kBool with
  | none => rfl
  | some bt => exact hbool bt hb

end NormalForms

/-! ## The claims -/

section Claims

variable {TypeNode LType Block : Type} [DecidableEq LType]

/-- C4: `Build` on a root that is null, or whose node type is not the
function-definition kind, returns failure with the status code set
(`kCodegenError`) and the message set (`node is null`); the module is left as
it was, so no callable is declared, and the slot behind the out-parameter
`result` is not written. -/
theorem Build_rejects_absent_or_wrong_kind (env : CodegenEnv TypeNode LType)
    (block_ir_builder : BlockIRBuilder LType Block) (fuel : Nat)
    (root : Option (FnNodeFnDef TypeNode Block)) (st : BuildSt LType)
    (hroot : root = none ∨ ∃ r, root = some r ∧ r.GetType ≠ SQLNodeType.kFnDef) :
    ∃ st1, Build env block_ir_builder fuel root st = .returned false st1 ∧
      st1.status = ⟨StatusCode.kCodegenError, "node is null"⟩ ∧
      st1.module_ = st.module_ ∧ st1.result = st.result := by
  rcases hroot with h | ⟨r, h, hr⟩
  · subst h
    exact ⟨_, rfl, rfl, rfl, rfl⟩
  · subst h
    refine ⟨{ st with status := ⟨StatusCode.kCodegenError, "node is null"⟩ }, ?_, rfl, rfl, rfl⟩
    simp [Build, hr]

/-- C7: on a header whose return type maps to a native type that is not an
aggregate and whose parameter list holds a parameter `p` without native type,
every parameter before `p` having one, `BuildFnHead` (called with a valid
out-parameter `fn`) returns failure with the code `kCodegenError` and the
message `fail to get primary type for pname` followed by the name of `p`.
Everything else is as before the call: no callable is declared in the module,
no scope is entered, the slot behind `fn` is not written. -/
theorem BuildFnHead_unmappable_parameter (env : CodegenEnv TypeNode LType) (fuel : Nat)
    (h : FnNodeFnHeander TypeNode) (ps : FnNodeList TypeNode) (st : St LType) (rt : LType)
    (slot : Option (Callee LType)) (pre : List (FnParaNode TypeNode)) (p : FnParaNode TypeNode)
    (post : List (FnParaNode TypeNode))
    (hrt : env.GetLLVMType h.ret_type_ = some rt) (hagg : env.IsStructPtr rt = false)
    (hps : h.parameters_ = some ps) (hch : ps.children = pre ++ p :: post)
    (hpre : ∀ q ∈ pre, (env.GetLLVMType q.GetParaType).isSome = true)
    (hp : env.GetLLVMType p.GetParaType = none)
    (hfn : st.fn = some slot) :
    BuildFnHead env (fuel + 1) (some h) st =
      .returned false
        { st with status :=
            ⟨StatusCode.kCodegenError, "fail to get primary type for pname " ++ p.GetName⟩ } := by
  obtain ⟨tys, htys⟩ := mappable_of_all_some env pre hpre
  have hparas : h.paras = pre ++ p :: post := by simp [FnNodeFnHeander.paras, hps, hch]
  exact BuildFnHead_nonagg_unmappable env fuel h st rt slot pre p post tys hrt hagg hfn hparas
    htys hp

/-- C9: when the mapping of boolean is never classified as an aggregate, the
recursion `BuildFnHead -> BuildFnHeadWithRetStruct -> BuildFnHead` ends within
two levels on every header: with any fuel of two or more the outcome is the one
with fuel two, it is not the exhaustion of the fuel, and at the state where it
stops `BuildFnHeadWithRetStruct` has been called exactly once when the declared
return type maps to an aggregate and not at all otherwise (so the header it
builds is not rewritten again). -/
theorem BuildFnHead_rewrites_at_most_once (env : CodegenEnv TypeNode LType)
    (hbool : ∀ bt, env.GetLLVMType env.kBool = some bt → env.IsStructPtr bt = false)
    (fuel : Nat) (h : FnNodeFnHeander TypeNode) (st : St LType) :
    BuildFnHead env (fuel + 2) (some h) st = BuildFnHead env 2 (some h) st ∧
    BuildFnHead env 2 (some h) st ≠ .outOfFuel ∧
    ∃ st1, (BuildFnHead env 2 (some h) st).state = some st1 ∧
      st1.rewrites = st.rewrites + (if returnsAggregate env h then 1 else 0) := by
  have key : BuildFnHead env (fuel + 2) (some h) st = BuildFnHead env 2 (some h) st ∧
      ∃ st1, (BuildFnHead env 2 (some h) st).state = some st1 ∧
        st1.rewrites = st.rewrites + (if returnsAggregate env h then 1 else 0) := by
    cases hra : returnsAggregate env h with
    | false =>
      refine ⟨BuildFnHead_final_fuel env (fuel + 1) 1 h st hra, ?_⟩
      simpa using BuildFnHead_final_rewrites env 1 h st hra
    | true =>
      cases hrt : env.GetLLVMType h.ret_type_ with
      | none => simp [returnsAggregate, hrt] at hra
      | some rt =>
        have hagg : env.IsStructPtr rt = true := by simpa [returnsAggregate, hrt] using hra
        cases hfn : st.fn with
        | none =>
          refine ⟨by simp [BuildFnHead, hrt, hagg, BuildFnHeadWithRetStruct, hfn],
            { st with rewrites := st.rewrites + 1,
                      status := ⟨StatusCode.kCodegenError, "input is null"⟩ }, ?_, by simp⟩
          simp [BuildFnHead, hrt, hagg, BuildFnHeadWithRetStruct, hfn, Outcome.state]
        | some slot =>
          cases hps : h.parameters_ with
          | none =>
            rw [BuildFnHead_agg_null_paras env (fuel + 1) h st rt slot hrt hagg hfn hps,
              BuildFnHead_agg_null_paras env 1 h st rt slot hrt hagg hfn hps]
            exact ⟨rfl, _, rfl, by simp⟩
          | some ps =>
            have hfin := returnsAggregate_retStructHeader env hbool h ps.children
            rw [BuildFnHead_agg_eq env (fuel + 1) h st rt slot ps hrt hagg hfn hps,
              BuildFnHead_agg_eq env 1 h st rt slot ps hrt hagg hfn hps]
            refine ⟨BuildFnHead_final_fuel env fuel 0 _ _ hfin, ?_⟩
            simpa using BuildFnHead_final_rewrites env 0 (retStructHeader env h ps.children)
              { st with rewrites := st.rewrites + 1 } hfin
  refine ⟨key.1, ?_, key.2⟩
  obtain ⟨st1, hs, _⟩ := key.2
  intro hc
  rw [hc] at hs
  simp [Outcome.state] at hs

theorem map_some_inj {α : Type} (a b : List α) (h : a.map some = b.map some) : a = b :=
  List.map_injective_iff.mpr (Option.some_injective α) h

/-- C2: on a header whose declared return type maps to a native type `rt`
that is not an aggregate and whose parameter types map, in declared order, to
`tys`, a successful `BuildFnHead` leaves behind `fn` a function of the module
whose type has the parameter types `tys` and the return type `rt`; `tys` is as
long as the parameter list, and empty when the list is absent. -/
theorem BuildFnHead_nonaggregate_signature (env : CodegenEnv TypeNode LType) (fuel : Nat)
    (h : FnNodeFnHeander TypeNode) (st st1 : St LType) (rt : LType) (tys : List LType)
    (hrt : env.GetLLVMType h.ret_type_ = some rt) (hagg : env.IsStructPtr rt = false)
    (htys : h.paras.map (fun p => env.GetLLVMType p.GetParaType) = tys.map some)
    (hok : BuildFnHead env fuel (some h) st = .returned true st1) :
    st1.fn = some (some (Callee.function (env.GeIRFunctionName h) ⟨rt, tys⟩)) ∧
    (∃ f, st1.module_.getFunction (env.GeIRFunctionName h) = some f ∧ f.type = ⟨rt, tys⟩) ∧
    tys.length = h.paras.length ∧
    (h.parameters_ = none → tys = []) := by
  cases fuel with
  | zero => simp [BuildFnHead] at hok
  | succ fuel =>
    obtain ⟨tys0, m, h1, _, h3, h4, _⟩ :=
      BuildFnHead_nonagg_true_inv env fuel h st st1 rt hrt hagg hok
    have e : tys0 = tys := map_some_inj _ _ (h1.symm.trans htys)
    subst e
    subst h3
    refine ⟨rfl, h4, length_of_mappable env h.paras tys0 htys, ?_⟩
    intro hnone
    have hl := length_of_mappable env h.paras tys0 htys
    simp only [FnNodeFnHeander.paras, hnone, List.length_nil] at hl
    exact List.eq_nil_of_length_eq_zero hl

/-- C1: on a header with a present list of `n` parameters whose types map, in
declared order, to `tys`, and whose declared return type maps to an aggregate
`rt`, a successful `BuildFnHead` leaves behind `fn` a function of the module
whose return type is the mapping `bt` of boolean and whose parameter types are
`tys` followed by `rt`, `n + 1` in all.  The return type `bt` is not an
aggregate, so it is not `rt`. -/
theorem BuildFnHead_aggregate_return_rewrite (env : CodegenEnv TypeNode LType) (fuel : Nat)
    (h : FnNodeFnHeander TypeNode) (ps : FnNodeList TypeNode) (st st1 : St LType) (rt : LType)
    (tys : List LType)
    (hps : h.parameters_ = some ps)
    (hrt : env.GetLLVMType h.ret_type_ = some rt) (hagg : env.IsStructPtr rt = true)
    (htys : ps.children.map (fun p => env.GetLLVMType p.GetParaType) = tys.map some)
    (hok : BuildFnHead env fuel (some h) st = .returned true st1) :
    ∃ bt, env.GetLLVMType env.kBool = some bt ∧ env.IsStructPtr bt = false ∧ bt ≠ rt ∧
      st1.fn = some (some (Callee.function
        (env.GeIRFunctionName (retStructHeader env h ps.children)) ⟨bt, tys ++ [rt]⟩)) ∧
      (∃ f, st1.module_.getFunction (env.GeIRFunctionName (retStructHeader env h ps.children))
          = some f ∧ f.type = ⟨bt, tys ++ [rt]⟩) ∧
      (tys ++ [rt]).length = ps.children.length + 1 := by
  obtain ⟨ps1, bt, fuel1, hps1, hb, hbagg, hok1⟩ :=
    BuildFnHead_agg_true_inv env fuel h st st1 rt hrt hagg hok
  have e : ps1 = ps := by
    rw [hps] at hps1
    injection hps1 with e
    exact e.symm
  subst e
  obtain ⟨tys0, m, h1, _, h3, h4, _⟩ :=
    BuildFnHead_nonagg_true_inv env fuel1 (retStructHeader env h ps1.children) _ st1 bt
      (by simpa [retStructHeader] using hb) hbagg hok1
  have e : tys0 = tys ++ [rt] := by
    apply map_some_inj
    rw [← h1]
    simp [retStructHeader, FnNodeFnHeander.paras, htys, hrt]
  subst e
  subst h3
  refine ⟨bt, hb, hbagg, ?_, rfl, h4, ?_⟩
  · intro hbr
    rw [hbr, hagg] at hbagg
    cases hbagg
  · simp [length_of_mappable env ps1.children tys htys]

/-- C3: when `BuildFnHead` succeeds, a scope named after the declared function
is entered on top of the scopes there were, the function has as many native
arguments as the declared header (the rewritten one when the return type maps
to an aggregate) has parameters, and for every position `k` the name of the
parameter at `k` is bound in that scope to the native argument at `k`.  In the
aggregate case `@ret_struct` is bound to the last native argument. -/
theorem BuildFnHead_binds_parameters_in_order (env : CodegenEnv TypeNode LType) (fuel : Nat)
    (h : FnNodeFnHeander TypeNode) (st st1 : St LType)
    (hok : BuildFnHead env fuel (some h) st = .returned true st1) :
    ∃ (fname : String) (ftype : FunctionType LType) (bs : List (String × NativeValue LType)),
      st1.fn = some (some (Callee.function fname ftype)) ∧
      st1.sv.scopes_ = ⟨fname, bs⟩ :: st.sv.scopes_ ∧
      (Callee.args fname ftype).length = (rewrittenHeader env h).paras.length ∧
      (∀ k p, (rewrittenHeader env h).paras[k]? = some p →
        ∃ a, (Callee.args fname ftype)[k]? = some a ∧ a.argNo = k ∧
          st1.sv.findInCurrent p.GetName = some (NativeValue.Create a)) ∧
      (returnsAggregate env h = true →
        ∃ a, (Callee.args fname ftype).getLast? = some a ∧
          st1.sv.findInCurrent "@ret_struct" = some (NativeValue.Create a)) := by
  obtain ⟨rt, tys, m, h1, h2, h3, h4, h5, _, _⟩ := BuildFnHead_true_inv env fuel h st st1 hok
  have hl := length_of_mappable env _ tys h3
  have hbound : ∀ k p, (rewrittenHeader env h).paras[k]? = some p →
      ∃ a, (Callee.args (env.GeIRFunctionName (rewrittenHeader env h))
              (FunctionType.mk rt tys))[k]? = some a ∧ a.argNo = k ∧
        st1.sv.findInCurrent p.GetName = some (NativeValue.Create a) := by
    intro k p hk
    have hlt : k < tys.length := by
      rw [hl]
      exact (List.getElem?_eq_some.mp hk).1
    have ht : tys[k]? = some (tys.get ⟨k, hlt⟩) := by simp
    refine ⟨⟨env.GeIRFunctionName (rewrittenHeader env h), k, tys.get ⟨k, hlt⟩⟩, ?_, rfl, ?_⟩
    · simp only [Callee.args]
      rw [argsFrom_getElem?, ht]
      simp
    · rw [h5]
      exact lookup_bindings_getElem _ _ tys k p _ h4 hk ht
  refine ⟨env.GeIRFunctionName (rewrittenHeader env h), ⟨rt, tys⟩, _, by rw [h5], by rw [h5], ?_,
    hbound, ?_⟩
  · simp [Callee.args, argsFrom_length, hl]
  · intro hra
    have hpar : (rewrittenHeader env h).paras = h.paras ++ [⟨"@ret_struct", h.ret_type_⟩] := by
      simp [rewrittenHeader, hra, retStructHeader, FnNodeFnHeander.paras]
    have hk : (rewrittenHeader env h).paras[h.paras.length]? =
        some ⟨"@ret_struct", h.ret_type_⟩ := by
      rw [hpar]; simp
    obtain ⟨a, ha, _, hf⟩ := hbound _ _ hk
    refine ⟨a, ?_, hf⟩
    have hlen : (Callee.args (env.GeIRFunctionName (rewrittenHeader env h))
        (FunctionType.mk rt tys)).length = h.paras.length + 1 := by
      simp [Callee.args, argsFrom_length, hl, hpar]
    rw [List.getLast?_eq_getElem?, hlen]
    simpa using ha

theorem getOrInsertFunction_again (m : Module LType) (n : String) (ft : FunctionType LType) :
    (m.getOrInsertFunction n ft).2.getOrInsertFunction n ft = m.getOrInsertFunction n ft := by
  cases hg : m.getFunction n with
  | none =>
    have h2 := getFunction_append_new m n ft hg
    simp [Module.getOrInsertFunction, hg, h2]
  | some f =>
    by_cases hty : f.type = ft
    · simp [Module.getOrInsertFunction, hg, hty]
    · simp [Module.getOrInsertFunction, hg, hty]

theorem getOrInsertFunction_length (m : Module LType) (n : String) (ft : FunctionType LType) :
    (m.getOrInsertFunction n ft).2.functions.length ≤ m.functions.length + 1 := by
  cases hg : m.getFunction n with
  | none => simp [Module.getOrInsertFunction, hg]
  | some f =>
    by_cases hty : f.type = ft
    · simp [Module.getOrInsertFunction, hg, hty]
    · simp [Module.getOrInsertFunction, hg, hty]

/-- What a failing `BuildFnHead` leaves of the module, for every header. -/
theorem BuildFnHead_false_inv (env : CodegenEnv TypeNode LType) :
    ∀ (fuel : Nat) (h : FnNodeFnHeander TypeNode) (st st1 : St LType),
      BuildFnHead env fuel (some h) st = .returned false st1 →
      st1.module_ = st.module_ ∨
        ∃ (q : FnParaNode TypeNode) (fname : String) (ftype : FunctionType LType),
          st1.status = ⟨StatusCode.kCodegenError, "fail to define var " ++ q.GetName⟩ ∧
          st1.fn = some (some (Callee.function fname ftype)) ∧
          st1.module_ = (st.module_.getOrInsertFunction fname ftype).2 := by
  intro fuel
  induction fuel with
  | zero => intro h st st1 hr; simp [BuildFnHead] at hr
  | succ fuel ih =>
    intro h st st1 hr
    cases hrt : env.GetLLVMType h.ret_type_ with
    | none =>
      rw [BuildFnHead_ret_unmappable env fuel h st hrt] at hr
      injection hr with _ hs
      subst hs
      exact Or.inl rfl
    | some rt =>
      cases hagg : env.IsStructPtr rt with
      | false => exact BuildFnHead_nonagg_false_inv env fuel h st st1 rt hrt hagg hr
      | true =>
        cases hfn : st.fn with
        | none =>
          obtain ⟨s, hs, hm, _⟩ := BuildFnHead_null_fn env fuel h st hfn
          rw [hs] at hr
          injection hr with _ hs1
          subst hs1
          exact Or.inl hm
        | some slot =>
          cases hps : h.parameters_ with
          | none =>
            rw [BuildFnHead_agg_null_paras env fuel h st rt slot hrt hagg hfn hps] at hr
            cases hr
          | some ps =>
            rw [BuildFnHead_agg_eq env fuel h st rt slot ps hrt hagg hfn hps] at hr
            exact ih _ { st with rewrites := st.rewrites + 1 } _ hr

theorem not_nodup_of_dup (pre : List (FnParaNode TypeNode)) (q : FnParaNode TypeNode)
    (post : List (FnParaNode TypeNode)) (hq : q.GetName ∈ pre.map (fun p => p.GetName)) :
    ¬ ((pre ++ q :: post).map (fun p => p.GetName)).Nodup := by
  rw [List.map_append, List.nodup_append]
  intro hh
  exact hh.2.2 hq (by simp)

theorem finishHead_ok (h : FnNodeFnHeander TypeNode) (name : String)
    (ft : FunctionType LType) (m : Module LType) (st : St LType)
    (hl : ft.params.length = h.paras.length) :
    ∃ st1, finishHead h name ft m st =
        .returned (decide ((h.paras.map (fun p => p.GetName)).Nodup)) st1 ∧
      st1.module_ = m ∧ st1.fn = some (some (Callee.function name ft)) := by
  rcases nodup_or_first_dup h.paras with hn | ⟨pre, q, post, h1, h2, h3⟩
  · rw [finishHead_nodup h name ft m st hl hn]
    have e : decide ((h.paras.map (fun p => p.GetName)).Nodup) = true := by simp [hn]
    rw [e]
    exact ⟨_, rfl, rfl, rfl⟩
  · rw [finishHead_dup h name ft m st pre q post hl h1 h2 h3]
    have hnn := not_nodup_of_dup pre q post h3
    rw [← h1] at hnn
    have e : decide ((h.paras.map (fun p => p.GetName)).Nodup) = false := by
      simp only [hnn, decide_False]
    rw [e]
    exact ⟨_, rfl, rfl, rfl⟩

theorem BuildFnHead_nonagg_again (env : CodegenEnv TypeNode LType) (fuel : Nat)
    (h : FnNodeFnHeander TypeNode) (st st1 : St LType) (ok : Bool) (rt : LType)
    (hrt : env.GetLLVMType h.ret_type_ = some rt) (hagg : env.IsStructPtr rt = false)
    (hr : BuildFnHead env (fuel + 1) (some h) st = .returned ok st1) :
    st1.fn.isSome = st.fn.isSome ∧
    ∀ st' : St LType, st'.module_ = st1.module_ → st'.fn = st1.fn →
      ∃ st2, BuildFnHead env (fuel + 1) (some h) st' = .returned ok st2 ∧
        st2.module_ = st1.module_ ∧ st2.fn = st1.fn := by
  cases hfn : st.fn with
  | none =>
    have e : ∀ s : St LType, s.fn = none → BuildFnHead env (fuel + 1) (some h) s =
        .returned false { s with status := ⟨StatusCode.kCodegenError, "input is null"⟩ } := by
      intro s hs
      simp [BuildFnHead, hrt, hagg, CreateFunction_null_fn env (some h) s hs]
    rw [e st hfn] at hr
    injection hr with hb hs
    subst hb; subst hs
    refine ⟨by simp [hfn], ?_⟩
    intro st' hm hf
    have hf' : st'.fn = none := by rw [hf]; exact hfn
    exact ⟨_, e st' hf', hm, hf⟩
  | some slot =>
    rcases mappable_or_first_unmappable env h.paras with
      ⟨tys, htys⟩ | ⟨pre, p, post, tys, h1, h2, h3⟩
    · have hl : (FunctionType.mk rt tys).params.length = h.paras.length :=
        length_of_mappable env h.paras tys htys
      rw [BuildFnHead_nonagg_eq env fuel h st rt slot tys hrt hagg hfn htys] at hr
      have second : ∀ (st' : St LType) (f : Function LType),
          st'.module_.getFunction (env.GeIRFunctionName h) = some f → f.type = ⟨rt, tys⟩ →
          st'.fn = some (some (Callee.function (env.GeIRFunctionName h) ⟨rt, tys⟩)) →
          ∃ st2, BuildFnHead env (fuel + 1) (some h) st' =
              .returned (decide ((h.paras.map (fun p => p.GetName)).Nodup)) st2 ∧
            st2.module_ = st'.module_ ∧
            st2.fn = some (some (Callee.function (env.GeIRFunctionName h) ⟨rt, tys⟩)) := by
        intro st' f hg hty hf
        rw [BuildFnHead_nonagg_eq env fuel h st' rt _ tys hrt hagg hf htys, hg]
        simp only [hty, if_true]
        exact finishHead_ok h _ _ _ st' hl
      cases hg : st.module_.getFunction (env.GeIRFunctionName h) with
      | none =>
        rw [hg] at hr
        obtain ⟨sx, hx, hxm, hxf⟩ := finishHead_ok h (env.GeIRFunctionName h) ⟨rt, tys⟩
          ⟨st.module_.functions ++ [⟨env.GeIRFunctionName h, ⟨rt, tys⟩, []⟩]⟩ st hl
        rw [hx] at hr
        injection hr with hb hs
        subst hb; subst hs
        refine ⟨by simp [hxf], ?_⟩
        intro st' hm hf
        obtain ⟨st2, e1, e2, e3⟩ := second st' ⟨env.GeIRFunctionName h, ⟨rt, tys⟩, []⟩
          (by rw [hm, hxm]; exact getFunction_append_new _ _ _ hg) rfl (by rw [hf, hxf])
        exact ⟨st2, e1, by rw [e2, hm], by rw [e3, hxf]⟩
      | some f =>
        rw [hg] at hr
        by_cases hty : f.type = ⟨rt, tys⟩
        · simp only [hty, if_true] at hr
          obtain ⟨sx, hx, hxm, hxf⟩ := finishHead_ok h (env.GeIRFunctionName h) ⟨rt, tys⟩
            st.module_ st hl
          rw [hx] at hr
          injection hr with hb hs
          subst hb; subst hs
          refine ⟨by simp [hxf], ?_⟩
          intro st' hm hf
          obtain ⟨st2, e1, e2, e3⟩ := second st' f (by rw [hm, hxm]; exact hg) hty
            (by rw [hf, hxf])
          exact ⟨st2, e1, by rw [e2, hm], by rw [e3, hxf]⟩
        · simp [hty] at hr
    · rw [BuildFnHead_nonagg_unmappable env fuel h st rt slot pre p post tys hrt hagg hfn
        h1 h2 h3] at hr
      injection hr with hb hs
      subst hb; subst hs
      refine ⟨by simp [hfn], ?_⟩
      intro st' hm hf
      exact ⟨_, BuildFnHead_nonagg_unmappable env fuel h st' rt slot pre p post tys hrt hagg
        (by rw [hf]; exact hfn) h1 h2 h3, hm, hf⟩

theorem BuildFnHead_again (env : CodegenEnv TypeNode LType) :
    ∀ (fuel : Nat) (h : FnNodeFnHeander TypeNode) (st st1 : St LType) (ok : Bool),
      BuildFnHead env fuel (some h) st = .returned ok st1 →
      st1.fn.isSome = st.fn.isSome ∧
      ∀ st' : St LType, st'.module_ = st1.module_ → st'.fn = st1.fn →
        ∃ st2, BuildFnHead env fuel (some h) st' = .returned ok st2 ∧
          st2.module_ = st1.module_ ∧ st2.fn = st1.fn := by
  intro fuel
  induction fuel with
  | zero => intro h st st1 ok hr; simp [BuildFnHead] at hr
  | succ fuel ih =>
    intro h st st1 ok hr
    cases hrt : env.GetLLVMType h.ret_type_ with
    | none =>
      rw [BuildFnHead_ret_unmappable env fuel h st hrt] at hr
      injection hr with hb hs
      subst hb; subst hs
      refine ⟨rfl, ?_⟩
      intro st' hm hf
      exact ⟨_, BuildFnHead_ret_unmappable env fuel h st' hrt, hm, hf⟩
    | some rt =>
      cases hagg : env.IsStructPtr rt with
      | false => exact BuildFnHead_nonagg_again env fuel h st st1 ok rt hrt hagg hr
      | true =>
        cases hfn : st.fn with
        | none =>
          have e : ∀ s : St LType, s.fn = none → BuildFnHead env (fuel + 1) (some h) s =
              .returned false
                { s with status := ⟨StatusCode.kCodegenError, "input is null"⟩,
                         rewrites := s.rewrites + 1 } := by
            intro s hs
            simp [BuildFnHead, hrt, hagg, BuildFnHeadWithRetStruct, hs]
          rw [e st hfn] at hr
          injection hr with hb hs
          subst hb; subst hs
          refine ⟨by simp [hfn], ?_⟩
          intro st' hm hf
          have hf' : st'.fn = none := by rw [hf]; exact hfn
          exact ⟨_, e st' hf', hm, hf⟩
        | some slot =>
          cases hps : h.parameters_ with
          | none =>
            rw [BuildFnHead_agg_null_paras env fuel h st rt slot hrt hagg hfn hps] at hr
            cases hr
          | some ps =>
            rw [BuildFnHead_agg_eq env fuel h st rt slot ps hrt hagg hfn hps] at hr
            obtain ⟨i1, i2⟩ := ih _ { st with rewrites := st.rewrites + 1 } _ _ hr
            have hsome : st1.fn.isSome = true := by rw [i1]; simp [hfn]
            refine ⟨by rw [i1]; simp [hfn], ?_⟩
            intro st' hm hf
            obtain ⟨slot', hslot'⟩ := Option.isSome_iff_exists.mp hsome
            rw [BuildFnHead_agg_eq env fuel h st' rt slot' ps hrt hagg (by rw [hf, hslot']) hps]
            exact i2 { st' with rewrites := st'.rewrites + 1 } hm hf

theorem same_index_of_nodup (cs : List (FnParaNode TypeNode)) (i j : Nat)
    (p q : FnParaNode TypeNode) (hn : (cs.map (fun p => p.GetName)).Nodup)
    (hi : cs[i]? = some p) (hj : cs[j]? = some q) (hij : i < j)
    (hname : p.GetName = q.GetName) : False := by
  have hjl : j < (cs.map (fun p => p.GetName)).length := by
    rw [List.length_map]
    exact (List.getElem?_eq_some.mp hj).1
  have hne := List.nodup_iff_getElem?_ne_getElem?.mp hn i j hij hjl
  apply hne
  rw [List.getElem?_map, List.getElem?_map, hi, hj]
  simp [hname]

theorem BuildFnHead_to_rewritten (env : CodegenEnv TypeNode LType) (fuel : Nat)
    (h : FnNodeFnHeander TypeNode) (st : St LType) (slot : Option (Callee LType))
    (hfn : st.fn = some slot)
    (hpres : returnsAggregate env h = true → ∃ ps, h.parameters_ = some ps) :
    BuildFnHead env (fuel + 2) (some h) st =
      BuildFnHead env (fuel + 1) (some (rewrittenHeader env h))
        { st with rewrites := st.rewrites + (if returnsAggregate env h then 1 else 0) } := by
  cases hra : returnsAggregate env h with
  | false =>
    have hrw : rewrittenHeader env h = h := by simp [rewrittenHeader, hra]
    rw [hrw, BuildFnHead_final_fuel env (fuel + 1) fuel h st hra]
    rfl
  | true =>
    obtain ⟨ps, hps⟩ := hpres hra
    cases hrt : env.GetLLVMType h.ret_type_ with
    | none => simp [returnsAggregate, hrt] at hra
    | some rt =>
      have hagg : env.IsStructPtr rt = true := by simpa [returnsAggregate, hrt] using hra
      have hpar : h.paras = ps.children := by simp [FnNodeFnHeander.paras, hps]
      have hrw : rewrittenHeader env h = retStructHeader env h ps.children := by
        simp [rewrittenHeader, hra, hpar]
      rw [hrw, BuildFnHead_agg_eq env (fuel + 1) h st rt slot ps hrt hagg hfn hps]
      rfl

theorem BuildFnHead_nonagg_noclash (env : CodegenEnv TypeNode LType) (fuel : Nat)
    (h : FnNodeFnHeander TypeNode) (st : St LType) (rt : LType) (slot : Option (Callee LType))
    (tys : List LType)
    (hrt : env.GetLLVMType h.ret_type_ = some rt) (hagg : env.IsStructPtr rt = false)
    (hfn : st.fn = some slot)
    (htys : h.paras.map (fun p => env.GetLLVMType p.GetParaType) = tys.map some)
    (hclash : ∀ f, st.module_.getFunction (env.GeIRFunctionName h) = some f →
      f.type = ⟨rt, tys⟩) :
    ∃ m : Module LType,
      BuildFnHead env (fuel + 1) (some h) st =
        finishHead h (env.GeIRFunctionName h) ⟨rt, tys⟩ m st ∧
      ∃ f, m.getFunction (env.GeIRFunctionName h) = some f ∧ f.type = ⟨rt, tys⟩ := by
  rw [BuildFnHead_nonagg_eq env fuel h st rt slot tys hrt hagg hfn htys]
  cases hg : st.module_.getFunction (env.GeIRFunctionName h) with
  | none => exact ⟨_, rfl, _, getFunction_append_new _ _ _ hg, rfl⟩
  | some f =>
    have hty := hclash f hg
    simp only [hty, if_true]
    exact ⟨_, rfl, f, hg, hty⟩

/-- C6, as amended: on a header in which the parameters at two positions
`i < j` have the same name, every type of the declared header (the rewritten
one for an aggregate return type) being mappable with a return type that is
not an aggregate, no other function type being recorded under its name, and
the out-parameter `fn` being valid, `BuildFnHead` returns failure.  The
parameter `d` at which it fails is the first whose name repeats an earlier one
(the names before it are pairwise distinct, and it is at `j` or before); the
status has the code `kCodegenError` and the message `fail to define var`
followed by the name of `d`.  The function has been declared in the module
before, and in the entered scope the name of `d` is still bound to the native
argument at the position `i0` of its earlier occurrence.  When the names
before `j` are pairwise distinct, `d` is the parameter at `j` and `i0` is
`i`. -/
theorem BuildFnHead_duplicate_parameter_name (env : CodegenEnv TypeNode LType) (fuel : Nat)
    (h : FnNodeFnHeander TypeNode) (ps : FnNodeList TypeNode) (st : St LType) (rt : LType)
    (tys : List LType) (slot : Option (Callee LType)) (i j : Nat) (p q : FnParaNode TypeNode)
    (hps : h.parameters_ = some ps)
    (hi : ps.children[i]? = some p) (hj : ps.children[j]? = some q) (hij : i < j)
    (hname : p.GetName = q.GetName)
    (hrt : env.GetLLVMType (rewrittenHeader env h).ret_type_ = some rt)
    (hagg : env.IsStructPtr rt = false)
    (htys : (rewrittenHeader env h).paras.map (fun p => env.GetLLVMType p.GetParaType)
      = tys.map some)
    (hclash : ∀ f, st.module_.getFunction (env.GeIRFunctionName (rewrittenHeader env h)) = some f →
      f.type = ⟨rt, tys⟩)
    (hfn : st.fn = some slot) :
    ∃ (pre : List (FnParaNode TypeNode)) (d : FnParaNode TypeNode)
      (post : List (FnParaNode TypeNode)) (st1 : St LType) (i0 : Nat) (a : Argument LType),
      ps.children = pre ++ d :: post ∧ (pre.map (fun p => p.GetName)).Nodup ∧ pre.length ≤ j ∧
      (∃ p0, pre[i0]? = some p0 ∧ p0.GetName = d.GetName) ∧
      BuildFnHead env (fuel + 2) (some h) st = .returned false st1 ∧
      st1.status = ⟨StatusCode.kCodegenError, "fail to define var " ++ d.GetName⟩ ∧
      st1.fn = some (some (Callee.function (env.GeIRFunctionName (rewrittenHeader env h))
        ⟨rt, tys⟩)) ∧
      (∃ f, st1.module_.getFunction (env.GeIRFunctionName (rewrittenHeader env h)) = some f ∧
        f.type = ⟨rt, tys⟩) ∧
      (Callee.args (env.GeIRFunctionName (rewrittenHeader env h))
        (FunctionType.mk rt tys))[i0]? = some a ∧ a.argNo = i0 ∧
      st1.sv.findInCurrent d.GetName = some (NativeValue.Create a) ∧
      (((ps.children.take j).map (fun p => p.GetName)).Nodup →
        pre.length = j ∧ d = q ∧ i0 = i) := by
  rcases nodup_or_first_dup ps.children with hn | ⟨pre, d, post, h1, h2, h3⟩
  · exact (same_index_of_nodup ps.children i j p q hn hi hj hij hname).elim
  · have hpar : h.paras = ps.children := by simp [FnNodeFnHeander.paras, hps]
    have hle : pre.length ≤ j := by
      by_contra hlt
      have hjlt : j < pre.length := Nat.lt_of_not_le hlt
      have hi' : pre[i]? = some p := by
        rw [← hi, h1, List.getElem?_append_left (Nat.lt_trans hij hjlt)]
      have hj' : pre[j]? = some q := by
        rw [← hj, h1, List.getElem?_append_left hjlt]
      exact same_index_of_nodup pre i j p q h2 hi' hj' hij hname
    obtain ⟨post', hpost⟩ : ∃ post', (rewrittenHeader env h).paras = pre ++ d :: post' := by
      cases hra : returnsAggregate env h with
      | false => exact ⟨post, by simp [rewrittenHeader, hra, hpar, h1]⟩
      | true =>
        exact ⟨post ++ [⟨"@ret_struct", h.ret_type_⟩],
          by simp [rewrittenHeader, hra, hps, h1, retStructHeader, FnNodeFnHeander.paras]⟩
    have hl : (FunctionType.mk rt tys).params.length = (rewrittenHeader env h).paras.length :=
      length_of_mappable env _ tys htys
    obtain ⟨m, hm, hdecl⟩ := BuildFnHead_nonagg_noclash env fuel (rewrittenHeader env h)
      { st with rewrites := st.rewrites + (if returnsAggregate env h then 1 else 0) } rt slot
      tys hrt hagg hfn htys hclash
    have hrun := BuildFnHead_to_rewritten env fuel h st slot hfn (fun _ => ⟨ps, hps⟩)
    rw [hm, finishHead_dup _ _ _ m _ pre d post' hl hpost h2 h3] at hrun
    obtain ⟨p0, hp0mem, hp0name⟩ := List.mem_map.mp h3
    obtain ⟨i0, hi0⟩ := List.getElem?_of_mem hp0mem
    have hi0lt : i0 < pre.length := (List.getElem?_eq_some.mp hi0).1
    have hprelt : pre.length < tys.length := by
      have := hl
      simp only [hpost, List.length_append, List.length_cons] at this
      omega
    have hi0tys : i0 < tys.length := Nat.lt_trans hi0lt hprelt
    have ht : tys[i0]? = some (tys.get ⟨i0, hi0tys⟩) := by simp
    have ht' : (tys.take pre.length)[i0]? = some (tys.get ⟨i0, hi0tys⟩) := by
      rw [List.getElem?_take_of_lt hi0lt, ht]
    refine ⟨pre, d, post, _, i0,
      ⟨env.GeIRFunctionName (rewrittenHeader env h), i0, tys.get ⟨i0, hi0tys⟩⟩,
      h1, h2, hle, ⟨p0, hi0, hp0name⟩, hrun, rfl, rfl, hdecl, ?_, rfl, ?_, ?_⟩
    · simp only [Callee.args]
      rw [argsFrom_getElem?, ht]
      simp
    · have := lookup_bindings_getElem (env.GeIRFunctionName (rewrittenHeader env h)) pre
        (tys.take pre.length) i0 p0 _ h2 hi0 ht'
      rw [hp0name] at this
      exact this
    · intro hnd
      have hdj : ps.children[pre.length]? = some d := by
        rw [h1, List.getElem?_append_right (Nat.le_refl _)]
        simp
      have hlen : pre.length = j := by
        by_contra hne
        have hlt : pre.length < j := Nat.lt_of_le_of_ne hle hne
        have a1 : (ps.children.take j)[i0]? = some p0 := by
          rw [List.getElem?_take_of_lt (Nat.lt_trans hi0lt hlt), h1,
            List.getElem?_append_left hi0lt]
          exact hi0
        have a2 : (ps.children.take j)[pre.length]? = some d := by
          rw [List.getElem?_take_of_lt hlt]
          exact hdj
        exact same_index_of_nodup _ i0 pre.length p0 d hnd a1 a2 hi0lt hp0name
      have hdq : d = q := by
        rw [hlen, hj] at hdj
        injection hdj with e
        exact e.symm
      have hilt : i < pre.length := by rw [hlen]; exact hij
      have hpi : pre[i]? = some p := by
        rw [← hi, h1, List.getElem?_append_left hilt]
      have hnm : p0.GetName = p.GetName := by rw [hp0name, hdq, hname]
      refine ⟨hlen, hdq, ?_⟩
      by_contra hne
      rcases Nat.lt_or_gt_of_ne hne with hlt | hgt
      · exact same_index_of_nodup pre i0 i p0 p h2 hi0 hpi hlt hnm
      · exact same_index_of_nodup pre i i0 p p0 h2 hpi hi0 hgt hnm.symm

theorem finishHead_false_inv (h : FnNodeFnHeander TypeNode) (name : String)
    (ft : FunctionType LType) (m : Module LType) (st st1 : St LType)
    (hl : ft.params.length = h.paras.length)
    (hr : finishHead h name ft m st = .returned false st1) :
    ∃ (pre : List (FnParaNode TypeNode)) (q : FnParaNode TypeNode)
      (post : List (FnParaNode TypeNode)),
      h.paras = pre ++ q :: post ∧ (pre.map (fun p => p.GetName)).Nodup ∧
      q.GetName ∈ pre.map (fun p => p.GetName) ∧
      st1.status = ⟨StatusCode.kCodegenError, "fail to define var " ++ q.GetName⟩ ∧
      st1.fn = some (some (Callee.function name ft)) ∧ st1.module_ = m := by
  rcases nodup_or_first_dup h.paras with hn | ⟨pre, q, post, h1, h2, h3⟩
  · rw [finishHead_nodup h name ft m st hl hn] at hr
    injection hr with hb _
    simp at hb
  · rw [finishHead_dup h name ft m st pre q post hl h1 h2 h3] at hr
    injection hr with _ hs
    subst hs
    exact ⟨pre, q, post, h1, h2, h3, rfl, rfl, rfl⟩

/-- A failing `BuildFnHead` on a header whose return type is not an aggregate:
the module is untouched, or the binding of a repeated name has failed after the
declaration of the header's function. -/
theorem BuildFnHead_nonagg_false_declared (env : CodegenEnv TypeNode LType) (fuel : Nat)
    (h : FnNodeFnHeander TypeNode) (st st1 : St LType) (rt : LType)
    (hrt : env.GetLLVMType h.ret_type_ = some rt) (hagg : env.IsStructPtr rt = false)
    (hr : BuildFnHead env (fuel + 1) (some h) st = .returned false st1) :
    st1.module_ = st.module_ ∨
      ∃ (tys : List LType) (pre : List (FnParaNode TypeNode)) (q : FnParaNode TypeNode)
        (post : List (FnParaNode TypeNode)),
        h.paras.map (fun p => env.GetLLVMType p.GetParaType) = tys.map some ∧
        h.paras = pre ++ q :: post ∧ (pre.map (fun p => p.GetName)).Nodup ∧
        q.GetName ∈ pre.map (fun p => p.GetName) ∧
        st1.status = ⟨StatusCode.kCodegenError, "fail to define var " ++ q.GetName⟩ ∧
        st1.fn = some (some (Callee.function (env.GeIRFunctionName h) ⟨rt, tys⟩)) ∧
        st1.module_ = (st.module_.getOrInsertFunction (env.GeIRFunctionName h) ⟨rt, tys⟩).2 ∧
        ∃ f, st1.module_.getFunction (env.GeIRFunctionName h) = some f ∧
          f.type = ⟨rt, tys⟩ := by
  cases hfn : st.fn with
  | none =>
    obtain ⟨s, hs, hm, _⟩ := BuildFnHead_null_fn env fuel h st hfn
    rw [hs] at hr
    injection hr with _ hs1
    subst hs1
    exact Or.inl hm
  | some slot =>
    rcases mappable_or_first_unmappable env h.paras with
      ⟨tys, htys⟩ | ⟨pre, p, post, tys, h1, h2, h3⟩
    · have hl : (FunctionType.mk rt tys).params.length = h.paras.length :=
        length_of_mappable env h.paras tys htys
      rw [BuildFnHead_nonagg_eq env fuel h st rt slot tys hrt hagg hfn htys] at hr
      cases hg : st.module_.getFunction (env.GeIRFunctionName h) with
      | none =>
        rw [hg] at hr
        obtain ⟨pre, q, post, e1, e2, e3, e4, e5, e6⟩ :=
          finishHead_false_inv h _ _ _ st st1 hl hr
        refine Or.inr ⟨tys, pre, q, post, htys, e1, e2, e3, e4, e5, ?_, ?_⟩
        · simp [Module.getOrInsertFunction, hg, e6]
        · rw [e6]
          exact ⟨_, getFunction_append_new _ _ _ hg, rfl⟩
      | some f =>
        rw [hg] at hr
        by_cases hty : f.type = ⟨rt, tys⟩
        · simp only [hty, if_true] at hr
          obtain ⟨pre, q, post, e1, e2, e3, e4, e5, e6⟩ :=
            finishHead_false_inv h _ _ _ st st1 hl hr
          refine Or.inr ⟨tys, pre, q, post, htys, e1, e2, e3, e4, e5, ?_, ?_⟩
          · simp [Module.getOrInsertFunction, hg, hty, e6]
          · rw [e6]
            exact ⟨f, hg, hty⟩
        · simp [hty] at hr
    · rw [BuildFnHead_nonagg_unmappable env fuel h st rt slot pre p post tys hrt hagg hfn h1 h2 h3]
        at hr
      injection hr with _ hs1
      subst hs1
      exact Or.inl rfl

theorem BuildFnHead_bool_agg_never_false (env : CodegenEnv TypeNode LType) (bt : LType)
    (hb : env.GetLLVMType env.kBool = some bt) (hbagg : env.IsStructPtr bt = true) :
    ∀ (fuel : Nat) (h : FnNodeFnHeander TypeNode) (ps : FnNodeList TypeNode)
      (slot : Option (Callee LType)) (st st1 : St LType),
      h.ret_type_ = env.kBool → h.parameters_ = some ps → st.fn = some slot →
      BuildFnHead env fuel (some h) st ≠ .returned false st1 := by
  intro fuel
  induction fuel with
  | zero => intro h ps slot st st1 _ _ _ hc; simp [BuildFnHead] at hc
  | succ fuel ih =>
    intro h ps slot st st1 hret hps hfn hc
    have hrt : env.GetLLVMType h.ret_type_ = some bt := by rw [hret]; exact hb
    rw [BuildFnHead_agg_eq env fuel h st bt slot ps hrt hbagg hfn hps] at hc
    exact ih (retStructHeader env h ps.children) _ slot
      { st with rewrites := st.rewrites + 1 } st1 rfl rfl hfn hc

/-- A failing `BuildFnHead` on any header: the module is untouched, or the
binding of a repeated name has failed after the declaration of the function of
the header that is declared. -/
theorem BuildFnHead_false_declared (env : CodegenEnv TypeNode LType) (fuel : Nat)
    (h : FnNodeFnHeander TypeNode) (st st1 : St LType)
    (hr : BuildFnHead env fuel (some h) st = .returned false st1) :
    st1.module_ = st.module_ ∨
      ∃ (rt : LType) (tys : List LType) (pre : List (FnParaNode TypeNode))
        (q : FnParaNode TypeNode) (post : List (FnParaNode TypeNode)),
        env.GetLLVMType (rewrittenHeader env h).ret_type_ = some rt ∧
        (rewrittenHeader env h).paras.map (fun p => env.GetLLVMType p.GetParaType)
          = tys.map some ∧
        (rewrittenHeader env h).paras = pre ++ q :: post ∧
        (pre.map (fun p => p.GetName)).Nodup ∧
        q.GetName ∈ pre.map (fun p => p.GetName) ∧
        st1.status = ⟨StatusCode.kCodegenError, "fail to define var " ++ q.GetName⟩ ∧
        st1.fn = some (some (Callee.function
          (env.GeIRFunctionName (rewrittenHeader env h)) ⟨rt, tys⟩)) ∧
        st1.module_ = (st.module_.getOrInsertFunction
          (env.GeIRFunctionName (rewrittenHeader env h)) ⟨rt, tys⟩).2 ∧
        ∃ f, st1.module_.getFunction (env.GeIRFunctionName (rewrittenHeader env h)) = some f ∧
          f.type = ⟨rt, tys⟩ := by
  cases fuel with
  | zero => simp [BuildFnHead] at hr
  | succ fuel =>
    cases hrt : env.GetLLVMType h.ret_type_ with
    | none =>
      rw [BuildFnHead_ret_unmappable env fuel h st hrt] at hr
      injection hr with _ hs
      subst hs
      exact Or.inl rfl
    | some rt0 =>
      cases hagg : env.IsStructPtr rt0 with
      | false =>
        have hra : returnsAggregate env h = false := by simp [returnsAggregate, hrt, hagg]
        have hrw : rewrittenHeader env h = h := by simp [rewrittenHeader, hra]
        rw [hrw]
        rcases BuildFnHead_nonagg_false_declared env fuel h st st1 rt0 hrt hagg hr with
          hm | ⟨tys, pre, q, post, e⟩
        · exact Or.inl hm
        · exact Or.inr ⟨rt0, tys, pre, q, post, hrt, e⟩
      | true =>
        have hra : returnsAggregate env h = true := by simp [returnsAggregate, hrt, hagg]
        cases hfn : st.fn with
        | none =>
          obtain ⟨s, hs, hm, _⟩ := BuildFnHead_null_fn env fuel h st hfn
          rw [hs] at hr
          injection hr with _ hs1
          subst hs1
          exact Or.inl hm
        | some slot =>
          cases hps : h.parameters_ with
          | none =>
            rw [BuildFnHead_agg_null_paras env fuel h st rt0 slot hrt hagg hfn hps] at hr
            cases hr
          | some ps =>
            have hpar : h.paras = ps.children := by simp [FnNodeFnHeander.paras, hps]
            have hrw : rewrittenHeader env h = retStructHeader env h ps.children := by
              simp [rewrittenHeader, hra, hpar]
            rw [BuildFnHead_agg_eq env fuel h st rt0 slot ps hrt hagg hfn hps] at hr
            cases fuel with
            | zero => simp [BuildFnHead] at hr
            | succ fuel1 =>
              cases hb : env.GetLLVMType env.kBool with
              | none =>
                rw [BuildFnHead_ret_unmappable env fuel1 _ _
                  (by simpa [retStructHeader] using hb)] at hr
                injection hr with _ hs
                subst hs
                exact Or.inl rfl
              | some bt =>
                cases hbagg : env.IsStructPtr bt with
                | true =>
                  exact absurd hr (BuildFnHead_bool_agg_never_false env bt hb hbagg _
                    (retStructHeader env h ps.children) _ slot _ _ rfl rfl hfn)
                | false =>
                  rw [hrw]
                  rcases BuildFnHead_nonagg_false_declared env fuel1
                    (retStructHeader env h ps.children)
                    { st with rewrites := st.rewrites + 1 } st1 bt
                    (by simpa [retStructHeader] using hb) hbagg hr with
                    hm | ⟨tys, pre, q, post, e⟩
                  · exact Or.inl hm
                  · exact Or.inr ⟨bt, tys, pre, q, post,
                      by simpa [retStructHeader] using hb, e⟩



/-- C5, as amended.  When `BuildFnHead` returns failure, either the module is
as it was before the call, or the failure is the one of the binding step on a
parameter `q` whose name repeats an earlier one (`fail to define var` followed
by the name of `q`), raised after the declaration: then `fn` holds the function
named after the declared header (the rewritten one for an aggregate return
type) with its mapped signature, the module holds that function, and the module
is the one `getOrInsertFunction` left for it, at most one function longer than
before the call.  When `Build` returns failure, `result` is not written, and
either the module is as before the call, or the header's function has been
declared and then the binding step has failed, the module being the one
`getOrInsertFunction` left, or the body lowering has failed, the module being
what `BuildBlock` gave back when handed the module with that declaration and
its entry block. -/
theorem BuildFnHead_failure_leaves_at_most_the_declaration (env : CodegenEnv TypeNode LType)
    (block_ir_builder : BlockIRBuilder LType Block) (fuel : Nat) :
    (∀ (h : FnNodeFnHeander TypeNode) (st st1 : St LType),
      BuildFnHead env fuel (some h) st = .returned false st1 →
      st1.module_ = st.module_ ∨
        ∃ (rt : LType) (tys : List LType) (pre : List (FnParaNode TypeNode))
          (q : FnParaNode TypeNode) (post : List (FnParaNode TypeNode)),
          env.GetLLVMType (rewrittenHeader env h).ret_type_ = some rt ∧
          (rewrittenHeader env h).paras.map (fun p => env.GetLLVMType p.GetParaType)
            = tys.map some ∧
          (rewrittenHeader env h).paras = pre ++ q :: post ∧
          (pre.map (fun p => p.GetName)).Nodup ∧
          q.GetName ∈ pre.map (fun p => p.GetName) ∧
          st1.status = ⟨StatusCode.kCodegenError, "fail to define var " ++ q.GetName⟩ ∧
          st1.fn = some (some (Callee.function
            (env.GeIRFunctionName (rewrittenHeader env h)) ⟨rt, tys⟩)) ∧
          st1.module_ = (st.module_.getOrInsertFunction
            (env.GeIRFunctionName (rewrittenHeader env h)) ⟨rt, tys⟩).2 ∧
          (∃ f, st1.module_.getFunction (env.GeIRFunctionName (rewrittenHeader env h)) = some f ∧
            f.type = ⟨rt, tys⟩) ∧
          st1.module_.functions.length ≤ st.module_.functions.length + 1) ∧
    (∀ (root : Option (FnNodeFnDef TypeNode Block)) (st st1 : BuildSt LType),
      Build env block_ir_builder fuel root st = .returned false st1 →
      st1.result = st.result ∧
      (st1.module_ = st.module_ ∨
        ∃ (r : FnNodeFnDef TypeNode Block) (h : FnNodeFnHeander TypeNode) (rt : LType)
          (tys : List LType),
          root = some r ∧ r.header_ = some h ∧
          env.GetLLVMType (rewrittenHeader env h).ret_type_ = some rt ∧
          (rewrittenHeader env h).paras.map (fun p => env.GetLLVMType p.GetParaType)
            = tys.map some ∧
          (∃ f, (st.module_.getOrInsertFunction
              (env.GeIRFunctionName (rewrittenHeader env h)) ⟨rt, tys⟩).2.getFunction
              (env.GeIRFunctionName (rewrittenHeader env h)) = some f ∧ f.type = ⟨rt, tys⟩) ∧
          ((st1.module_ = (st.module_.getOrInsertFunction
                (env.GeIRFunctionName (rewrittenHeader env h)) ⟨rt, tys⟩).2 ∧
              ∃ (pre : List (FnParaNode TypeNode)) (q : FnParaNode TypeNode)
                (post : List (FnParaNode TypeNode)),
                (rewrittenHeader env h).paras = pre ++ q :: post ∧
                (pre.map (fun p => p.GetName)).Nodup ∧
                q.GetName ∈ pre.map (fun p => p.GetName) ∧
                st1.status =
                  ⟨StatusCode.kCodegenError, "fail to define var " ++ q.GetName⟩) ∨
            block_ir_builder.BuildBlock
                ⟨[⟨env.GeIRFunctionName (rewrittenHeader env h),
                    bindings (rewrittenHeader env h).paras
                      (argsFrom (env.GeIRFunctionName (rewrittenHeader env h)) 0 tys)⟩,
                  ⟨"module", []⟩]⟩
                r.block_ (env.GeIRFunctionName (rewrittenHeader env h))
                ((st.module_.getOrInsertFunction
                  (env.GeIRFunctionName (rewrittenHeader env h)) ⟨rt, tys⟩).2.addBlock
                  (env.GeIRFunctionName (rewrittenHeader env h)) "entry")
                st.status
              = (false, st1.module_, st1.status)))) := by
  constructor
  · intro h st st1 hr
    rcases BuildFnHead_false_declared env fuel h st st1 hr with
      hm | ⟨rt, tys, pre, q, post, e1, e2, e3, e4, e5, e6, e7, e8, e9⟩
    · exact Or.inl hm
    · refine Or.inr ⟨rt, tys, pre, q, post, e1, e2, e3, e4, e5, e6, e7, e8, e9, ?_⟩
      rw [e8]
      exact getOrInsertFunction_length _ _ _
  · intro root st st1 hb
    cases root with
    | none =>
      simp only [Build] at hb
      injection hb with _ hs
      subst hs
      exact ⟨rfl, Or.inl rfl⟩
    | some r =>
      by_cases hk : r.GetType = SQLNodeType.kFnDef
      · simp only [Build, hk, ne_eq, not_true_eq_false, if_false] at hb
        cases hh : r.header_ with
        | none =>
          rw [hh] at hb
          cases fuel <;> simp [BuildFnHead] at hb
        | some h =>
          rw [hh] at hb
          cases hout : BuildFnHead env fuel (some h)
              ⟨st.module_, (ScopeVar.mk []).Enter "module", some none, st.status, 0⟩ with
          | outOfFuel => rw [hout] at hb; simp at hb
          | nullDeref s1 => rw [hout] at hb; simp at hb
          | notAFunction s1 => rw [hout] at hb; simp at hb
          | returned ok s1 =>
            rw [hout] at hb
            cases ok with
            | false =>
              simp only at hb
              injection hb with _ hs
              subst hs
              refine ⟨rfl, ?_⟩
              rcases BuildFnHead_false_declared env fuel h _ s1 hout with
                hm | ⟨rt, tys, pre, q, post, e1, e2, e3, e4, e5, e6, e7, e8, e9⟩
              · exact Or.inl hm
              · refine Or.inr ⟨r, h, rt, tys, rfl, hh, e1, e2, ?_,
                  Or.inl ⟨e8, pre, q, post, e3, e4, e5, e6⟩⟩
                rw [← e8]
                exact e9
            | true =>
              obtain ⟨rt, tys, m, e1, _, e3, _, e5, e6, e7⟩ :=
                BuildFnHead_true_inv env fuel h _ s1 hout
              subst e5
              simp only at hb
              cases hbb : block_ir_builder.BuildBlock
                  ⟨[⟨env.GeIRFunctionName (rewrittenHeader env h),
                      bindings (rewrittenHeader env h).paras
                        (argsFrom (env.GeIRFunctionName (rewrittenHeader env h)) 0 tys)⟩,
                    ⟨"module", []⟩]⟩
                  r.block_ (env.GeIRFunctionName (rewrittenHeader env h))
                  (m.addBlock (env.GeIRFunctionName (rewrittenHeader env h)) "entry")
                  st.status with
              | mk ok2 rest =>
                obtain ⟨m2, status2⟩ := rest
                simp only [ScopeVar.Enter] at hb
                rw [hbb] at hb
                cases ok2 with
                | true => simp at hb
                | false =>
                  simp only at hb
                  injection hb with _ hs
                  subst hs
                  refine ⟨rfl, Or.inr ⟨r, h, rt, tys, rfl, hh, e1, e3, ?_, Or.inr ?_⟩⟩
                  · rw [← e7]
                    exact e6
                  · rw [← e7]
                    exact hbb
      · simp only [Build, ne_eq, hk, not_false_eq_true, if_true] at hb
        injection hb with _ hs
        subst hs
        exact ⟨rfl, Or.inl rfl⟩

/-- C10: on a header whose types are all mappable, with a valid out-parameter,
`CreateFunction` returns success leaving a callee behind `fn`, and run again
from the state it left it returns success leaving the same state: the same
callee, the same declaration table, which has at most one function more than
before the first call.  Whenever `BuildFnHead` returns, run again from the
state it left it returns the same boolean with the same callee behind `fn` and
the same declaration table, again at most one function longer than at first. -/
theorem declaration_is_idempotent (env : CodegenEnv TypeNode LType) (fuel : Nat)
    (h : FnNodeFnHeander TypeNode) (st : St LType) (rt : LType) (tys : List LType)
    (slot : Option (Callee LType))
    (hrt : env.GetLLVMType h.ret_type_ = some rt)
    (htys : h.paras.map (fun p => env.GetLLVMType p.GetParaType) = tys.map some)
    (hfn : st.fn = some slot) :
    (∃ (c : Callee LType) (m : Module LType),
      CreateFunction env (some h) st = .returned true { st with module_ := m, fn := some (some c) } ∧
      CreateFunction env (some h) { st with module_ := m, fn := some (some c) } =
        .returned true { st with module_ := m, fn := some (some c) } ∧
      m.functions.length ≤ st.module_.functions.length + 1) ∧
    (∀ (ok : Bool) (st1 : St LType), BuildFnHead env fuel (some h) st = .returned ok st1 →
      ∃ st2, BuildFnHead env fuel (some h) st1 = .returned ok st2 ∧
        st2.fn = st1.fn ∧ st2.module_ = st1.module_ ∧
        st1.module_.functions.length ≤ st.module_.functions.length + 1) := by
  constructor
  · refine ⟨_, _, CreateFunction_eq env h st rt slot tys hrt hfn htys, ?_,
      getOrInsertFunction_length _ _ _⟩
    rw [CreateFunction_eq env h _ rt _ tys hrt rfl htys]
    simp only [getOrInsertFunction_again]
  · intro ok st1 hr
    obtain ⟨_, hagain⟩ := BuildFnHead_again env fuel h st st1 ok hr
    obtain ⟨st2, e1, e2, e3⟩ := hagain st1 rfl rfl
    refine ⟨st2, e1, e3, e2, ?_⟩
    cases ok with
    | true =>
      obtain ⟨_, _, m, _, _, _, _, h5, _, h7⟩ := BuildFnHead_true_inv env fuel h st st1 hr
      rw [h5]
      simp only [h7]
      exact getOrInsertFunction_length _ _ _
    | false =>
      rcases BuildFnHead_false_inv env fuel h st st1 hr with hm | ⟨_, _, _, _, _, h3⟩
      · rw [hm]; omega
      · rw [h3]
        exact getOrInsertFunction_length _ _ _

end Claims

/-! ## The claims on the scenarios -/

section Scenarios

open Example

/-- C4, witness: the null root and a node of another kind, on the empty module. -/
theorem Build_rejects_absent_or_wrong_kind_witness :
    (∃ st1, Build env blockBuilder 2 (none : Option (FnNodeFnDef SrcType Unit)) bst0
        = .returned false st1 ∧
      st1.status = ⟨StatusCode.kCodegenError, "node is null"⟩ ∧
      st1.module_ = bst0.module_ ∧ st1.result = bst0.result) ∧
    (∃ st1, Build env blockBuilder 2 (some defWrongKind) bst0 = .returned false st1 ∧
      st1.status = ⟨StatusCode.kCodegenError, "node is null"⟩ ∧
      st1.module_ = bst0.module_ ∧ st1.result = bst0.result) :=
  ⟨Build_rejects_absent_or_wrong_kind env blockBuilder 2 none bst0 (Or.inl rfl),
    Build_rejects_absent_or_wrong_kind env blockBuilder 2 (some defWrongKind) bst0
      (Or.inr ⟨defWrongKind, rfl, by decide⟩)⟩

/-- C7, witness: `u(x: int32, y: unknown) -> int32`, whose second parameter has no
native type. -/
theorem BuildFnHead_unmappable_parameter_witness :
    BuildFnHead env 1 (some headerU) st0 =
      .returned false
        { st0 with status :=
            ⟨StatusCode.kCodegenError, "fail to get primary type for pname " ++ "y"⟩ } :=
  BuildFnHead_unmappable_parameter env 0 headerU ⟨[⟨"x", .kInt32⟩, ⟨"y", .kUnmapped⟩]⟩ st0 .i32
    none [⟨"x", .kInt32⟩] ⟨"y", .kUnmapped⟩ [] rfl rfl rfl rfl (by decide) rfl rfl

/-- C9, witness: `g(x: int32) -> struct` in the environment of the scenarios, where
boolean maps to `i1`. -/
theorem BuildFnHead_rewrites_at_most_once_witness :
    BuildFnHead env (3 + 2) (some headerE) st0 = BuildFnHead env 2 (some headerE) st0 ∧
    BuildFnHead env 2 (some headerE) st0 ≠ .outOfFuel ∧
    ∃ st1, (BuildFnHead env 2 (some headerE) st0).state = some st1 ∧
      st1.rewrites = st0.rewrites + (if returnsAggregate env headerE then 1 else 0) :=
  BuildFnHead_rewrites_at_most_once env (by decide) 3 headerE st0

/-- C2, witness: scenario A, `f(x: int32) -> int32` is declared as `(i32) -> i32`. -/
theorem BuildFnHead_nonaggregate_signature_witness :
    stA.fn = some (some (Callee.function (env.GeIRFunctionName headerA) ⟨.i32, [.i32]⟩)) ∧
    (∃ f, stA.module_.getFunction (env.GeIRFunctionName headerA) = some f ∧
      f.type = ⟨.i32, [.i32]⟩) ∧
    [NatType.i32].length = headerA.paras.length ∧
    (headerA.parameters_ = none → [NatType.i32] = []) :=
  BuildFnHead_nonaggregate_signature env 2 headerA st0 stA .i32 [.i32] rfl rfl rfl rfl

/-- C1, witness: `g(x: int32) -> struct` is declared as `(i32, structPtr) -> i1`. -/
theorem BuildFnHead_aggregate_return_rewrite_witness :
    ∃ bt, env.GetLLVMType env.kBool = some bt ∧ env.IsStructPtr bt = false ∧
      bt ≠ NatType.structPtr ∧
      stE.fn = some (some (Callee.function
        (env.GeIRFunctionName (retStructHeader env headerE [⟨"x", .kInt32⟩]))
        ⟨bt, [NatType.i32] ++ [NatType.structPtr]⟩)) ∧
      (∃ f, stE.module_.getFunction
          (env.GeIRFunctionName (retStructHeader env headerE [⟨"x", .kInt32⟩])) = some f ∧
        f.type = ⟨bt, [NatType.i32] ++ [NatType.structPtr]⟩) ∧
      ([NatType.i32] ++ [NatType.structPtr]).length = [(⟨"x", .kInt32⟩ : FnParaNode SrcType)].length + 1 :=
  BuildFnHead_aggregate_return_rewrite env 2 headerE ⟨[⟨"x", .kInt32⟩]⟩ st0 stE .structPtr
    [.i32] rfl rfl rfl rfl rfl

/-- C3, witness: `g(x: int32) -> struct`, with `x` bound to argument 0 and
`@ret_struct` to argument 1. -/
theorem BuildFnHead_binds_parameters_in_order_witness :
    ∃ (fname : String) (ftype : FunctionType NatType) (bs : List (String × NativeValue NatType)),
      stE.fn = some (some (Callee.function fname ftype)) ∧
      stE.sv.scopes_ = ⟨fname, bs⟩ :: st0.sv.scopes_ ∧
      (Callee.args fname ftype).length = (rewrittenHeader env headerE).paras.length ∧
      (∀ k p, (rewrittenHeader env headerE).paras[k]? = some p →
        ∃ a, (Callee.args fname ftype)[k]? = some a ∧ a.argNo = k ∧
          stE.sv.findInCurrent p.GetName = some (NativeValue.Create a)) ∧
      (returnsAggregate env headerE = true →
        ∃ a, (Callee.args fname ftype).getLast? = some a ∧
          stE.sv.findInCurrent "@ret_struct" = some (NativeValue.Create a)) :=
  BuildFnHead_binds_parameters_in_order env 2 headerE st0 stE rfl

/-- C6 as amended, witness: scenario D, `h(x: int32, x: string) -> bool` on the
empty module, with the pair of positions 0 and 1. -/
theorem BuildFnHead_duplicate_parameter_name_witness :
    ∃ (pre : List (FnParaNode SrcType)) (d : FnParaNode SrcType)
      (post : List (FnParaNode SrcType)) (st1 : St NatType) (i0 : Nat) (a : Argument NatType),
      [(⟨"x", .kInt32⟩ : FnParaNode SrcType), ⟨"x", .kVarchar⟩] = pre ++ d :: post ∧
      (pre.map (fun p => p.GetName)).Nodup ∧ pre.length ≤ 1 ∧
      (∃ p0, pre[i0]? = some p0 ∧ p0.GetName = d.GetName) ∧
      BuildFnHead env (0 + 2) (some headerD) st0 = .returned false st1 ∧
      st1.status = ⟨StatusCode.kCodegenError, "fail to define var " ++ d.GetName⟩ ∧
      st1.fn = some (some (Callee.function (env.GeIRFunctionName (rewrittenHeader env headerD))
        ⟨.i1, [.i32, .str]⟩)) ∧
      (∃ f, st1.module_.getFunction (env.GeIRFunctionName (rewrittenHeader env headerD)) = some f ∧
        f.type = ⟨.i1, [.i32, .str]⟩) ∧
      (Callee.args (env.GeIRFunctionName (rewrittenHeader env headerD))
        (FunctionType.mk NatType.i1 [.i32, .str]))[i0]? = some a ∧ a.argNo = i0 ∧
      st1.sv.findInCurrent d.GetName = some (NativeValue.Create a) ∧
      ((([(⟨"x", .kInt32⟩ : FnParaNode SrcType), ⟨"x", .kVarchar⟩].take 1).map
          (fun p => p.GetName)).Nodup →
        pre.length = 1 ∧ d = ⟨"x", .kVarchar⟩ ∧ i0 = 0) :=
  BuildFnHead_duplicate_parameter_name env 0 headerD ⟨[⟨"x", .kInt32⟩, ⟨"x", .kVarchar⟩]⟩ st0
    .i1 [.i32, .str] none 0 1 ⟨"x", .kInt32⟩ ⟨"x", .kVarchar⟩ rfl rfl rfl (by decide) rfl rfl rfl
    rfl (fun f hf => by simp [Module.getFunction, st0] at hf) rfl

/-- C6, counterexample: in `k(a, b, b, a)` the name `a` is at the positions
0 and 3, and `BuildFnHead` fails with the message naming `b`, not `a`; in
`k(a, a, a)` the name `a` is at the positions 1 and 2, and after the failure
it is bound to argument 0, not to argument 1.  With the null pointer for `fn`
scenario D fails with `input is null`, and with another function type recorded
under `h.int32.string` the call does not return a status. -/
theorem BuildFnHead_duplicate_names_not_the_given_pair :
    (headerK.paras[0]? = some ⟨"a", .kInt32⟩ ∧ headerK.paras[3]? = some ⟨"a", .kInt32⟩ ∧
      ∃ st1, BuildFnHead env 2 (some headerK) st0 = .returned false st1 ∧
        st1.status = ⟨StatusCode.kCodegenError, "fail to define var b"⟩ ∧
        st1.status.msg ≠ "fail to define var a") ∧
    (headerK3.paras[1]? = some ⟨"a", .kInt32⟩ ∧ headerK3.paras[2]? = some ⟨"a", .kInt32⟩ ∧
      ∃ st1, BuildFnHead env 2 (some headerK3) st0 = .returned false st1 ∧
        st1.sv.findInCurrent "a" =
          some (NativeValue.Create ⟨"k.int32.int32.int32", 0, .i32⟩) ∧
        st1.sv.findInCurrent "a" ≠
          some (NativeValue.Create ⟨"k.int32.int32.int32", 1, .i32⟩)) ∧
    BuildFnHead env 2 (some headerD) st0NullFn =
      .returned false { st0NullFn with status := ⟨StatusCode.kCodegenError, "input is null"⟩ } ∧
    BuildFnHead env 2 (some headerD) st0Clash =
      .notAFunction
        { st0Clash with fn := some (some (Callee.bitcast "h.int32.string" ⟨.i1, [.i32, .str]⟩)) } :=
  ⟨⟨rfl, rfl, _, rfl, rfl, by decide⟩, ⟨rfl, rfl, _, rfl, rfl, by decide⟩, rfl, rfl⟩

/-- C5, counterexample: for `h(x: int32, x: string) -> bool` on the empty
module `BuildFnHead` returns failure, and the function `h.int32.string`, which
the module did not hold before the call, is held by it after. -/
theorem BuildFnHead_failure_keeps_declaration :
    BuildFnHead env 2 (some headerD) st0 = .returned false stD ∧
    st0.module_.getFunction "h.int32.string" = none ∧
    stD.module_.getFunction "h.int32.string" =
      some ⟨"h.int32.string", ⟨.i1, [.i32, .str]⟩, []⟩ ∧
    stD.module_ ≠ st0.module_ :=
  ⟨rfl, rfl, rfl, by decide⟩

/-- C5 as amended, witness: the binding failure of scenario D, in `BuildFnHead`
and in `Build`, and scenario A in `Build` with a body lowering that fails. -/
theorem BuildFnHead_failure_leaves_at_most_the_declaration_witness :
    (stD.module_ = st0.module_ ∨
      ∃ (rt : NatType) (tys : List NatType) (pre : List (FnParaNode SrcType))
        (q : FnParaNode SrcType) (post : List (FnParaNode SrcType)),
        env.GetLLVMType (rewrittenHeader env headerD).ret_type_ = some rt ∧
        (rewrittenHeader env headerD).paras.map (fun p => env.GetLLVMType p.GetParaType)
          = tys.map some ∧
        (rewrittenHeader env headerD).paras = pre ++ q :: post ∧
        (pre.map (fun p => p.GetName)).Nodup ∧
        q.GetName ∈ pre.map (fun p => p.GetName) ∧
        stD.status = ⟨StatusCode.kCodegenError, "fail to define var " ++ q.GetName⟩ ∧
        stD.fn = some (some (Callee.function
          (env.GeIRFunctionName (rewrittenHeader env headerD)) ⟨rt, tys⟩)) ∧
        stD.module_ = (st0.module_.getOrInsertFunction
          (env.GeIRFunctionName (rewrittenHeader env headerD)) ⟨rt, tys⟩).2 ∧
        (∃ f, stD.module_.getFunction (env.GeIRFunctionName (rewrittenHeader env headerD)) = some f ∧
          f.type = ⟨rt, tys⟩) ∧
        stD.module_.functions.length ≤ st0.module_.functions.length + 1) ∧
    (bstD.result = bst0.result ∧
      (bstD.module_ = bst0.module_ ∨
        ∃ (r : FnNodeFnDef SrcType Unit) (h : FnNodeFnHeander SrcType) (rt : NatType)
          (tys : List NatType),
          some defD = some r ∧ r.header_ = some h ∧
          env.GetLLVMType (rewrittenHeader env h).ret_type_ = some rt ∧
          (rewrittenHeader env h).paras.map (fun p => env.GetLLVMType p.GetParaType)
            = tys.map some ∧
          (∃ f, (bst0.module_.getOrInsertFunction
              (env.GeIRFunctionName (rewrittenHeader env h)) ⟨rt, tys⟩).2.getFunction
              (env.GeIRFunctionName (rewrittenHeader env h)) = some f ∧ f.type = ⟨rt, tys⟩) ∧
          ((bstD.module_ = (bst0.module_.getOrInsertFunction
                (env.GeIRFunctionName (rewrittenHeader env h)) ⟨rt, tys⟩).2 ∧
              ∃ (pre : List (FnParaNode SrcType)) (q : FnParaNode SrcType)
                (post : List (FnParaNode SrcType)),
                (rewrittenHeader env h).paras = pre ++ q :: post ∧
                (pre.map (fun p => p.GetName)).Nodup ∧
                q.GetName ∈ pre.map (fun p => p.GetName) ∧
                bstD.status =
                  ⟨StatusCode.kCodegenError, "fail to define var " ++ q.GetName⟩) ∨
            blockBuilder.BuildBlock
                ⟨[⟨env.GeIRFunctionName (rewrittenHeader env h),
                    bindings (rewrittenHeader env h).paras
                      (argsFrom (env.GeIRFunctionName (rewrittenHeader env h)) 0 tys)⟩,
                  ⟨"module", []⟩]⟩
                r.block_ (env.GeIRFunctionName (rewrittenHeader env h))
                ((bst0.module_.getOrInsertFunction
                  (env.GeIRFunctionName (rewrittenHeader env h)) ⟨rt, tys⟩).2.addBlock
                  (env.GeIRFunctionName (rewrittenHeader env h)) "entry")
                bst0.status
              = (false, bstD.module_, bstD.status)))) ∧
    (bstA.result = bst0.result ∧
      (bstA.module_ = bst0.module_ ∨
        ∃ (r : FnNodeFnDef SrcType Unit) (h : FnNodeFnHeander SrcType) (rt : NatType)
          (tys : List NatType),
          some defA = some r ∧ r.header_ = some h ∧
          env.GetLLVMType (rewrittenHeader env h).ret_type_ = some rt ∧
          (rewrittenHeader env h).paras.map (fun p => env.GetLLVMType p.GetParaType)
            = tys.map some ∧
          (∃ f, (bst0.module_.getOrInsertFunction
              (env.GeIRFunctionName (rewrittenHeader env h)) ⟨rt, tys⟩).2.getFunction
              (env.GeIRFunctionName (rewrittenHeader env h)) = some f ∧ f.type = ⟨rt, tys⟩) ∧
          ((bstA.module_ = (bst0.module_.getOrInsertFunction
                (env.GeIRFunctionName (rewrittenHeader env h)) ⟨rt, tys⟩).2 ∧
              ∃ (pre : List (FnParaNode SrcType)) (q : FnParaNode SrcType)
                (post : List (FnParaNode SrcType)),
                (rewrittenHeader env h).paras = pre ++ q :: post ∧
                (pre.map (fun p => p.GetName)).Nodup ∧
                q.GetName ∈ pre.map (fun p => p.GetName) ∧
                bstA.status =
                  ⟨StatusCode.kCodegenError, "fail to define var " ++ q.GetName⟩) ∨
            failingBlockBuilder.BuildBlock
                ⟨[⟨env.GeIRFunctionName (rewrittenHeader env h),
                    bindings (rewrittenHeader env h).paras
                      (argsFrom (env.GeIRFunctionName (rewrittenHeader env h)) 0 tys)⟩,
                  ⟨"module", []⟩]⟩
                r.block_ (env.GeIRFunctionName (rewrittenHeader env h))
                ((bst0.module_.getOrInsertFunction
                  (env.GeIRFunctionName (rewrittenHeader env h)) ⟨rt, tys⟩).2.addBlock
                  (env.GeIRFunctionName (rewrittenHeader env h)) "entry")
                bst0.status
              = (false, bstA.module_, bstA.status)))) :=
  ⟨(BuildFnHead_failure_leaves_at_most_the_declaration env blockBuilder 2).1 headerD st0 stD rfl,
    (BuildFnHead_failure_leaves_at_most_the_declaration env blockBuilder 2).2 (some defD) bst0
      bstD rfl,
    (BuildFnHead_failure_leaves_at_most_the_declaration env failingBlockBuilder 2).2 (some defA)
      bst0 bstA rfl⟩

/-- C10, witness: scenario A declared twice from the empty module. -/
theorem declaration_is_idempotent_witness :
    (∃ (c : Callee NatType) (m : Module NatType),
      CreateFunction env (some headerA) st0 =
        .returned true { st0 with module_ := m, fn := some (some c) } ∧
      CreateFunction env (some headerA) { st0 with module_ := m, fn := some (some c) } =
        .returned true { st0 with module_ := m, fn := some (some c) } ∧
      m.functions.length ≤ st0.module_.functions.length + 1) ∧
    (∀ (ok : Bool) (st1 : St NatType), BuildFnHead env 2 (some headerA) st0 = .returned ok st1 →
      ∃ st2, BuildFnHead env 2 (some headerA) st1 = .returned ok st2 ∧
        st2.fn = st1.fn ∧ st2.module_ = st1.module_ ∧
        st1.module_.functions.length ≤ st0.module_.functions.length + 1) :=
  declaration_is_idempotent env 2 headerA st0 .i32 [.i32] none rfl rfl rfl

/-- C8, the code on the inputs of the claim: `Build` on a definition node whose
header pointer is null dereferences it (no status is set), and `BuildFnHead` on
`g() -> struct` with a null parameter list dereferences the list inside
`BuildFnHeadWithRetStruct`; with a present, empty list the same header is
declared as `(structPtr) -> i1` with `@ret_struct` bound to argument 0. -/
theorem BuildFnHead_dereferences_absent_header_and_parameter_list :
    Build env blockBuilder 2 (some defNullHeader) bst0 = .nullDeref bst0 ∧
    BuildFnHead env 2 (some headerBNull) st0 = .nullDeref { st0 with rewrites := 1 } ∧
    BuildFnHead env 2 (some headerB) st0 = .returned true stB :=
  ⟨rfl, rfl, rfl⟩

end Scenarios

end fesql
